import Mathlib

/-!
Verification of the spidertaire rules engine against its specification.

The definitions below are a shallow embedding of the Rust sources:
`src/lib.rs` (card model, deck builder) and `src/main.rs` (tableau state,
legal move calculator, move executor, reserve dealer, reveal step).
Machine integers (`u8`, indices) are modelled as `Nat`; the `HashMap` of
grid positions is modelled as an association list with unique keys and
`get`/`insert`/`remove` operations matching the `std::collections::HashMap`
behaviour used by the code.  Randomness (`Deck::shuffle`) is modelled by
passing the already-shuffled deck as a parameter, and the Bevy entity ids
are modelled as natural numbers allocated in spawn order.  Panics
(`.expect`, out-of-bounds indexing) are modelled by `Option`-valued
operations where a claim depends on them.
-/

set_option maxHeartbeats 1000000

/-- The value of a card (`CardValue` in `src/lib.rs`). -/
inductive CardValue where
  | K | Q | J | Ten | Nine | Eight | Seven | Six | Five | Four | Three | Two | A
deriving DecidableEq, Repr

/-- `CardValue::all`: all card values in descending order. -/
def CardValue.all : List CardValue :=
  [CardValue.K, CardValue.Q, CardValue.J, CardValue.Ten, CardValue.Nine,
   CardValue.Eight, CardValue.Seven, CardValue.Six, CardValue.Five,
   CardValue.Four, CardValue.Three, CardValue.Two, CardValue.A]

/-- `CardValue::previous`: the value one higher than the current value. -/
def CardValue.previous : CardValue → Option CardValue
  | CardValue.K => none
  | CardValue.Q => some CardValue.K
  | CardValue.J => some CardValue.Q
  | CardValue.Ten => some CardValue.J
  | CardValue.Nine => some CardValue.Ten
  | CardValue.Eight => some CardValue.Nine
  | CardValue.Seven => some CardValue.Eight
  | CardValue.Six => some CardValue.Seven
  | CardValue.Five => some CardValue.Six
  | CardValue.Four => some CardValue.Five
  | CardValue.Three => some CardValue.Four
  | CardValue.Two => some CardValue.Three
  | CardValue.A => some CardValue.Two

/-- `CardValue::next`: the value one lower than the current value. -/
def CardValue.next : CardValue → Option CardValue
  | CardValue.K => some CardValue.Q
  | CardValue.Q => some CardValue.J
  | CardValue.J => some CardValue.Ten
  | CardValue.Ten => some CardValue.Nine
  | CardValue.Nine => some CardValue.Eight
  | CardValue.Eight => some CardValue.Seven
  | CardValue.Seven => some CardValue.Six
  | CardValue.Six => some CardValue.Five
  | CardValue.Five => some CardValue.Four
  | CardValue.Four => some CardValue.Three
  | CardValue.Three => some CardValue.Two
  | CardValue.Two => some CardValue.A
  | CardValue.A => none

/-- `impl From CardValue for u8` in `src/lib.rs`: the numeric rank code. -/
def CardValue.toNum : CardValue → Nat
  | CardValue.K => 13
  | CardValue.Q => 12
  | CardValue.J => 11
  | CardValue.Ten => 10
  | CardValue.Nine => 9
  | CardValue.Eight => 8
  | CardValue.Seven => 7
  | CardValue.Six => 6
  | CardValue.Five => 5
  | CardValue.Four => 4
  | CardValue.Three => 3
  | CardValue.Two => 2
  | CardValue.A => 1

/-- `impl TryFrom u8 for CardValue` in `src/lib.rs`: the Rust `match` on the
numeric code, written as a chain of equality tests; the catch-all arm builds
the error string `"Unexpected card value: "` followed by the value. -/
def CardValue.tryFromNum (value : Nat) : Except String CardValue :=
  if value = 13 then Except.ok CardValue.K
  else if value = 12 then Except.ok CardValue.Q
  else if value = 11 then Except.ok CardValue.J
  else if value = 10 then Except.ok CardValue.Ten
  else if value = 9 then Except.ok CardValue.Nine
  else if value = 8 then Except.ok CardValue.Eight
  else if value = 7 then Except.ok CardValue.Seven
  else if value = 6 then Except.ok CardValue.Six
  else if value = 5 then Except.ok CardValue.Five
  else if value = 4 then Except.ok CardValue.Four
  else if value = 3 then Except.ok CardValue.Three
  else if value = 2 then Except.ok CardValue.Two
  else if value = 1 then Except.ok CardValue.A
  else Except.error ("Unexpected card value: " ++ toString value)

/-- The suit of a card (`CardSuit` in `src/lib.rs`). -/
inductive CardSuit where
  | Hearts | Diamonds | Clubs | Spades
deriving DecidableEq, Repr

/-- `CardSuit::all`: all card suits. -/
def CardSuit.all : List CardSuit :=
  [CardSuit.Hearts, CardSuit.Diamonds, CardSuit.Clubs, CardSuit.Spades]

/-- A playing card (`Card` in `src/lib.rs`). -/
structure Card where
  value : CardValue
  suit : CardSuit
deriving DecidableEq, Repr

/-- A deck of cards (`Deck` in `src/lib.rs`). -/
structure Deck where
  cards : List Card
deriving DecidableEq, Repr

/-- `Deck::from_suit`: 4 repetitions of the 13 descending values, all of
one suit. -/
def Deck.from_suit (suit : CardSuit) : Deck :=
  { cards := (List.range 4).flatMap fun _ =>
      CardValue.all.map fun value => { value := value, suit := suit } }

/-- `Deck::from_suits`: 2 repetitions of (13 descending values of `suit1`
followed by 13 descending values of `suit2`). -/
def Deck.from_suits (suit1 suit2 : CardSuit) : Deck :=
  { cards := (List.range 2).flatMap fun _ =>
      (CardValue.all.map fun value => { value := value, suit := suit1 }) ++
      (CardValue.all.map fun value => { value := value, suit := suit2 }) }

/-- `Deck::default` / `Deck::new`: all four suits, 13 descending values
each, suit-major order. -/
def Deck.new : Deck :=
  { cards := CardSuit.all.flatMap fun suit =>
      CardValue.all.map fun value => { value := value, suit := suit } }

/-- `Deck::combine`: appends the cards of `deck2` after the cards of this
deck. -/
def Deck.combine (deck : Deck) (deck2 : Deck) : Deck :=
  { cards := deck.cards ++ deck2.cards }

/-- Fuel-driven helper for `chunksExact`; the fuel is an upper bound on the
number of chunks, letting the definition compute by structural recursion. -/
def chunksExactAux (n : Nat) : Nat → List Card → List (List Card)
  | 0, _ => []
  | fuel + 1, l =>
    if n ≤ l.length ∧ 0 < n then l.take n :: chunksExactAux n fuel (l.drop n)
    else []

/-- Rust `slice::chunks_exact(n)`: the maximal list of consecutive chunks of
exactly `n` elements, discarding a final shorter remainder. -/
def chunksExact (n : Nat) (l : List Card) : List (List Card) :=
  chunksExactAux n l.length l

/-- A position in the tableau grid (`GridPosition` in `src/main.rs`);
`x` is the column, `y` the row, both `u8` in the source. -/
structure GridPosition where
  x : Nat
  y : Nat
deriving DecidableEq, Repr

/-- `GridPosition::next_row`: the position of the card below this one. -/
def GridPosition.next_row (p : GridPosition) : GridPosition :=
  { x := p.x, y := p.y + 1 }

/-- The visibility of a placed card: the `Hidden` / `Shown` marker
components of `src/main.rs`. -/
inductive Visibility where
  | Hidden | Shown
deriving DecidableEq, Repr

/-- One card entity of the tableau: the Bevy entity id together with its
`CardGui`, visibility marker and `GridPosition` components. -/
structure PlacedCard where
  id : Nat
  card : Card
  vis : Visibility
  pos : GridPosition
deriving DecidableEq, Repr

/-- The `HashMap GridPosition Entity` resource, as an association list with
unique keys. -/
abbrev GridMap := List (GridPosition × Nat)

/-- `HashMap::get`: the value stored under key `p`, if present. -/
def hmGet (g : GridMap) (p : GridPosition) : Option Nat :=
  (g.find? fun e => decide (e.1 = p)).map Prod.snd

/-- `HashMap::insert`: stores `v` under key `p`, replacing any previous
entry with that key. -/
def hmInsert (g : GridMap) (p : GridPosition) (v : Nat) : GridMap :=
  (p, v) :: g.filter fun e => decide (¬ e.1 = p)

/-- `HashMap::remove`: drops the entry with key `p`, if any. -/
def hmRemove (g : GridMap) (p : GridPosition) : GridMap :=
  g.filter fun e => decide (¬ e.1 = p)

/-- The mutable game state: the card entities (with their components), the
`HashMap GridPosition Entity` resource, and the `Vec Available` resource of
not-yet-dealt 10-card reserve sets. -/
structure GameState where
  entities : List PlacedCard
  grid_cards : GridMap
  available_sets : List (List Card)
deriving DecidableEq

/-- `new_game` (`src/main.rs`): given the combined shuffled 104-card deck
(shuffling is random and therefore a parameter of the model), spawns the
first 44 cards `Hidden` and the next 10 `Shown` in row-major order, records
each in the grid map, and enqueues the remaining cards in 10-card chunks as
the available sets. Entity ids are allocated in spawn order. -/
def new_game (deck : List Card) : GameState :=
  let hiddenEnts := (deck.take 44).enum.map fun pc =>
    { id := pc.1, card := pc.2, vis := Visibility.Hidden,
      pos := { x := pc.1 % 10, y := pc.1 / 10 } : PlacedCard }
  let shownEnts := ((deck.drop 44).take 10).enum.map fun pc =>
    { id := 44 + pc.1, card := pc.2, vis := Visibility.Shown,
      pos := { x := (pc.1 + 44) % 10, y := (pc.1 + 44) / 10 } : PlacedCard }
  let ents := hiddenEnts ++ shownEnts
  { entities := ents,
    grid_cards := ents.foldl (fun g e => hmInsert g e.pos e.id) [],
    available_sets := chunksExact 10 ((deck.drop 44).drop 10) }

/-- `calculate_legal_moves` (`src/main.rs`): for every ordered pair of
`Shown` cards (candidate, reference), if the reference card's next value
equals the candidate's value and the cell below the reference is not in the
grid map, the pair (candidate position, cell below reference) is a legal
move. -/
def calculate_legal_moves (st : GameState) : List (GridPosition × GridPosition) :=
  let other_cards := st.entities.filter fun e => decide (e.vis = Visibility.Shown)
  other_cards.flatMap fun card =>
    other_cards.filterMap fun other_card =>
      match other_card.card.value.next with
      | some value =>
        if value = card.card.value then
          if hmGet st.grid_cards other_card.pos.next_row = none then
            some (card.pos, other_card.pos.next_row)
          else none
        else none
      | none => none

/-- The move selected by a click on the `Shown` card with entity id `cid`
(`handle_grid_input`, first loop): the first entry of the legal-move list
whose source equals that card's position. -/
def clicked_move (st : GameState) (legal : List (GridPosition × GridPosition))
    (cid : Nat) : Option (GridPosition × GridPosition) :=
  (st.entities.find? fun e => decide (e.id = cid ∧ e.vis = Visibility.Shown)).bind
    fun ce => legal.find? fun m => decide (m.1 = ce.pos)

/-- The cascade condition of `handle_grid_input`: a `Shown` card in the
source column strictly below the source row. -/
def cascCond (s : GridPosition) (e : PlacedCard) : Bool :=
  decide (e.vis = Visibility.Shown ∧ e.pos.x = s.x ∧ s.y < e.pos.y)

/-- The destination of a cascaded card: the destination column, at the same
row offset below the target (`y_diff` computation of `handle_grid_input`). -/
def cascade_pos (s t p : GridPosition) : GridPosition :=
  { x := t.x, y := t.y + (p.y - s.y) }

/-- The grid-map updates of the cascade loop of `handle_grid_input`: for
each entity satisfying the cascade condition, remove its position from the
map (`none` models the `.expect` panic when absent) and insert it at its
cascade destination. -/
def cascade_grid (s t : GridPosition) (ents : List PlacedCard) (g : GridMap) :
    Option GridMap :=
  ents.foldl
    (fun og e => og.bind fun g' =>
      if cascCond s e then
        match hmGet g' e.pos with
        | none => none
        | some eid => some (hmInsert (hmRemove g' e.pos) (cascade_pos s t e.pos) eid)
      else some g')
    (some g)

/-- The entity components after the first phase of `handle_grid_input`: the
clicked Shown entity's position component is set to the move target. -/
def move_ents1 (st : GameState) (cid : Nat) (t : GridPosition) : List PlacedCard :=
  st.entities.map fun e =>
    if e.id = cid ∧ e.vis = Visibility.Shown then { e with pos := t } else e

/-- The entity components after the cascade loop of `handle_grid_input`:
every Shown entity of the source column strictly below the source row is
moved to its cascade destination. -/
def move_ents2 (s t : GridPosition) (ents : List PlacedCard) : List PlacedCard :=
  ents.map fun e =>
    if cascCond s e then { e with pos := cascade_pos s t e.pos } else e

/-- The game state produced by a successful `handle_grid_input` move: the
entity components after both phases together with the updated grid map. -/
def move_result (st : GameState) (cid : Nat) (mv : GridPosition × GridPosition)
    (g2 : GridMap) : GameState :=
  { entities := move_ents2 mv.1 mv.2 (move_ents1 st cid mv.2)
    grid_cards := g2
    available_sets := st.available_sets }

/-- `handle_grid_input` (`src/main.rs`), from the point where the click has
been hit-tested to the `Shown` card with entity id `cid`: apply the first
legal move whose source is that card's position (if none, nothing happens),
then cascade every `Shown` card of the source column below the source row
to the destination column at the same offset below the target.  `none`
models the `"Grid cards and components are out of sync"` panic.  The part
of the state transition performed once a legal move `mv` has been selected
is `apply_move`; `handle_grid_input` dispatches on the selected move. -/
def apply_move (st : GameState) (cid : Nat)
    (mv : GridPosition × GridPosition) : Option GameState :=
  match hmGet st.grid_cards mv.1 with
  | none => none
  | some eid =>
    (cascade_grid mv.1 mv.2 (move_ents1 st cid mv.2)
      (hmInsert (hmRemove st.grid_cards mv.1) mv.2 eid)).map fun g2 =>
      move_result st cid mv g2

def handle_grid_input (st : GameState) (legal : List (GridPosition × GridPosition))
    (cid : Nat) : Option GameState :=
  match clicked_move st legal cid with
  | none => some st
  | some mv => apply_move st cid mv

/-- `find_max_rows` (`src/main.rs`): for each of the 10 columns, one more
than the maximum occupied row, or 0 when no position of that column occurs. -/
def find_max_rows (positions : List GridPosition) : List Nat :=
  positions.foldl
    (fun result pos =>
      if result.getD pos.x 0 ≤ pos.y then result.set pos.x (pos.y + 1) else result)
    (List.replicate 10 0)

/-- `handle_available_input` (`src/main.rs`), from the point where the click
has been hit-tested to the reserve pile: if the available sets are empty
nothing happens; otherwise the front set is removed and its cards are
spawned `Shown`, one per column, each at its column's landing row computed
by `find_max_rows` over the grid-map keys.  New entity ids are allocated
from `nextId`. -/
def handle_available_input (st : GameState) (nextId : Nat) : GameState :=
  if st.available_sets.isEmpty then st
  else
    let max_rows := find_max_rows (st.grid_cards.map Prod.fst)
    let front := st.available_sets.headD []
    let newEnts := front.enum.map fun pc =>
      { id := nextId + pc.1, card := pc.2, vis := Visibility.Shown,
        pos := { x := pc.1, y := max_rows.getD pc.1 0 } : PlacedCard }
    { entities := st.entities ++ newEnts,
      grid_cards := newEnts.foldl (fun g e => hmInsert g e.pos e.id) st.grid_cards,
      available_sets := st.available_sets.tail }

/-- `show_revealed_cards` (`src/main.rs`): every `Hidden` card whose
`next_row` cell is not in the grid map becomes `Shown`. -/
def show_revealed_cards (st : GameState) : GameState :=
  { st with entities := st.entities.map fun e =>
      if e.vis = Visibility.Hidden ∧ hmGet st.grid_cards e.pos.next_row = none
      then { e with vis := Visibility.Shown } else e }

/-- The number of card entities occupying position `p`. -/
def occupantCount (st : GameState) (p : GridPosition) : Nat :=
  (st.entities.filter fun e => decide (e.pos = p)).length

/-- The occupancy-map invariant of the specification: a grid position is a
key of the cell map iff exactly one card entity occupies it, and the keys
are unique. -/
def OccInv (st : GameState) : Prop :=
  (∀ p : GridPosition, (hmGet st.grid_cards p).isSome = true ↔ occupantCount st p = 1) ∧
  (st.grid_cards.map Prod.fst).Nodup

/-- A Shown 8 of Spades at column 0, row 0, entity id 0: a concrete card
used to instantiate theorems. -/
def exCard8 : PlacedCard :=
  { id := 0
    card := { value := CardValue.Eight, suit := CardSuit.Spades }
    vis := Visibility.Shown
    pos := { x := 0, y := 0 } }

/-- A concrete one-card state containing `exCard8`. -/
def exSt1 : GameState :=
  { entities := [exCard8]
    grid_cards := [({ x := 0, y := 0 }, 0)]
    available_sets := [] }

/-- A concrete legal-move list whose second and third entries are both
sourced at `exCard8`'s position. -/
def exMoves1 : List (GridPosition × GridPosition) :=
  [({ x := 5, y := 5 }, { x := 6, y := 6 }),
   ({ x := 0, y := 0 }, { x := 1, y := 1 }),
   ({ x := 0, y := 0 }, { x := 2, y := 2 })]

/-- A Shown King of Spades at column 0, row 1, entity id 1: stacked directly
below `exCard8` in `exStC2`. -/
def exCardK : PlacedCard :=
  { id := 1
    card := { value := CardValue.K, suit := CardSuit.Spades }
    vis := Visibility.Shown
    pos := { x := 0, y := 1 } }

/-- A concrete two-card state: `exCard8` at (0,0) with `exCardK` stacked
below it at (0,1). -/
def exStC2 : GameState :=
  { entities := [exCard8, exCardK]
    grid_cards := [({ x := 0, y := 0 }, 0), ({ x := 0, y := 1 }, 1)]
    available_sets := [] }

/-- The state obtained from `exStC2` by moving the card at (0,0) to (4,5):
the stacked King cascades to (4,6). -/
def exStC2Res : GameState :=
  { entities := [{ exCard8 with pos := { x := 4, y := 5 } },
                 { exCardK with pos := { x := 4, y := 6 } }]
    grid_cards := [({ x := 4, y := 6 }, 1), ({ x := 4, y := 5 }, 0)]
    available_sets := [] }

/-- The landing row of column `i` over a list of occupied positions: one
more than the maximum occupied row in column `i`, or 0 when the column is
unoccupied — the order-independent per-column value computed by
`find_max_rows`. -/
def colLanding (positions : List GridPosition) (i : Nat) : Nat :=
  positions.foldl (fun a p => if p.x = i then max a (p.y + 1) else a) 0

/-- Ten cards of Spades used as a concrete reserve set. -/
def exFront : List Card := (Deck.from_suit CardSuit.Spades).cards.take 10

/-- A concrete state with one card on the tableau and one pending reserve
set. -/
def exStC3 : GameState :=
  { entities := [exCard8]
    grid_cards := [({ x := 0, y := 0 }, 0)]
    available_sets := [exFront] }

/-- The combined unshuffled one-suit deck: two copies of the Spades deck,
104 cards — one concrete possible outcome of the shuffle. -/
def exDeck104 : List Card :=
  ((Deck.from_suit CardSuit.Spades).combine (Deck.from_suit CardSuit.Spades)).cards

/-- The claim's occupancy invariant strengthened with uniqueness of entity
positions and of entity ids (both guaranteed by construction in the
entity-component system). -/
def StateOk (st : GameState) : Prop :=
  OccInv st ∧ (st.entities.map PlacedCard.pos).Nodup ∧
  (st.entities.map PlacedCard.id).Nodup

/-- A concrete state exhibiting a cascade collision: a Shown 8 at (0,2)
with a Shown King stacked at (0,3), a Shown 9 at (4,4) with (4,5) free, and
a Hidden Ace at (4,6). -/
def exStC6 : GameState :=
  { entities :=
      [{ id := 0
         card := { value := CardValue.Eight, suit := CardSuit.Spades }
         vis := Visibility.Shown
         pos := { x := 0, y := 2 } },
       { id := 1
         card := { value := CardValue.K, suit := CardSuit.Spades }
         vis := Visibility.Shown
         pos := { x := 0, y := 3 } },
       { id := 2
         card := { value := CardValue.Nine, suit := CardSuit.Spades }
         vis := Visibility.Shown
         pos := { x := 4, y := 4 } },
       { id := 3
         card := { value := CardValue.A, suit := CardSuit.Spades }
         vis := Visibility.Hidden
         pos := { x := 4, y := 6 } }]
    grid_cards := [({ x := 0, y := 2 }, 0), ({ x := 0, y := 3 }, 1),
      ({ x := 4, y := 4 }, 2), ({ x := 4, y := 6 }, 3)]
    available_sets := [] }

/-- The state reached from `exStC6` by executing its unique legal move
((0,2) onto (4,5)): the cascaded King lands on the occupied cell (4,6). -/
def exStC6Res : GameState :=
  { entities :=
      [{ id := 0
         card := { value := CardValue.Eight, suit := CardSuit.Spades }
         vis := Visibility.Shown
         pos := { x := 4, y := 5 } },
       { id := 1
         card := { value := CardValue.K, suit := CardSuit.Spades }
         vis := Visibility.Shown
         pos := { x := 4, y := 6 } },
       { id := 2
         card := { value := CardValue.Nine, suit := CardSuit.Spades }
         vis := Visibility.Shown
         pos := { x := 4, y := 4 } },
       { id := 3
         card := { value := CardValue.A, suit := CardSuit.Spades }
         vis := Visibility.Hidden
         pos := { x := 4, y := 6 } }]
    grid_cards := [({ x := 4, y := 6 }, 1), ({ x := 4, y := 5 }, 0),
      ({ x := 4, y := 4 }, 2)]
    available_sets := [] }

/-- The first 46 cards of the combined one-suit deck: the corresponding new
game has two Shown cards, an 8 at (4,4) and a 7 at (5,4), with the single
legal move ((5,4) onto (4,5)). -/
def exDeck46 : List Card := exDeck104.take 46

/-- The state after executing the single legal move of
`new_game exDeck46`, clicked on entity 45 (the Shown 7). -/
def exStC6WRes : GameState :=
  (handle_grid_input (new_game exDeck46)
    [({ x := 5, y := 4 }, { x := 4, y := 5 })] 45).getD (new_game exDeck46)

/-! ## Basic lemmas about the association-list map -/

theorem find?_filter_ne (g : GridMap) (p q : GridPosition) (h : p ≠ q) :
    ((g.filter fun e => decide (¬ e.1 = q)).find? fun e => decide (e.1 = p)) =
      (g.find? fun e => decide (e.1 = p)) := by
  induction g with
  | nil => rfl
  | cons e g ih =>
    by_cases he : e.1 = q
    · have hfe : (decide (¬ e.1 = q)) = false := by simp [he]
      rw [List.filter_cons, hfe, if_neg (by simp), ih,
        List.find?_cons_of_neg g
          (by simp only [he, decide_eq_true_eq]; exact fun hh => h hh.symm)]
    · have hfe : (decide (¬ e.1 = q)) = true := by simp [he]
      rw [List.filter_cons, hfe, if_pos rfl]
      by_cases hep : e.1 = p
      · rw [List.find?_cons_of_pos _ (by simp [hep]),
          List.find?_cons_of_pos _ (by simp [hep])]
      · rw [List.find?_cons_of_neg _ (by simp [hep]),
          List.find?_cons_of_neg _ (by simp [hep])]
        exact ih

theorem hmGet_insert (g : GridMap) (q : GridPosition) (v : Nat) (p : GridPosition) :
    hmGet (hmInsert g q v) p = if p = q then some v else hmGet g p := by
  unfold hmGet hmInsert
  by_cases h : p = q
  · subst h
    rw [List.find?_cons_of_pos _ (by simp), if_pos rfl]
    rfl
  · rw [List.find?_cons_of_neg _
        (by simp only [decide_eq_true_eq]; exact fun hh => h hh.symm),
      find?_filter_ne g p q h, if_neg h]

theorem hmGet_remove (g : GridMap) (q : GridPosition) (p : GridPosition) :
    hmGet (hmRemove g q) p = if p = q then none else hmGet g p := by
  unfold hmGet hmRemove
  by_cases h : p = q
  · subst h
    rw [if_pos rfl]
    have : ((g.filter fun e => decide (¬ e.1 = p)).find? fun e => decide (e.1 = p)) = none := by
      rw [List.find?_eq_none]
      intro x hx
      have := (List.mem_filter.mp hx).2
      simp only [decide_not, Bool.not_eq_true', decide_eq_false_iff_not] at this
      simp [this]
    rw [this]
    rfl
  · rw [find?_filter_ne g p q h, if_neg h]

theorem keys_nodup_remove (g : GridMap) (q : GridPosition)
    (h : (g.map Prod.fst).Nodup) : ((hmRemove g q).map Prod.fst).Nodup := by
  unfold hmRemove
  exact h.sublist (List.Sublist.map Prod.fst (List.filter_sublist g))

theorem keys_nodup_insert (g : GridMap) (q : GridPosition) (v : Nat)
    (h : (g.map Prod.fst).Nodup) : ((hmInsert g q v).map Prod.fst).Nodup := by
  unfold hmInsert
  rw [List.map_cons, List.nodup_cons]
  constructor
  · intro hq
    obtain ⟨e, he, hke⟩ := List.mem_map.mp hq
    have := (List.mem_filter.mp he).2
    simp only [decide_not, Bool.not_eq_true', decide_eq_false_iff_not] at this
    exact this hke
  · exact h.sublist (List.Sublist.map Prod.fst (List.filter_sublist g))

theorem hmGet_isSome_iff (g : GridMap) (p : GridPosition) :
    (hmGet g p).isSome = true ↔ ∃ v, (p, v) ∈ g := by
  unfold hmGet
  constructor
  · intro h
    match hf : g.find? fun e => decide (e.1 = p) with
    | none => rw [hf] at h; simp at h
    | some e =>
      have hmem := List.mem_of_find?_eq_some hf
      have hpred := List.find?_some hf
      simp only [decide_eq_true_eq] at hpred
      exact ⟨e.2, by rwa [← hpred, Prod.mk.eta]⟩
  · rintro ⟨v, hv⟩
    match hf : g.find? fun e => decide (e.1 = p) with
    | none =>
      rw [List.find?_eq_none] at hf
      exact absurd (by simp : decide (((p, v) : GridPosition × Nat).1 = p) = true) (hf _ hv)
    | some e => simp [hf]

theorem hmGet_none_iff (g : GridMap) (p : GridPosition) :
    hmGet g p = none ↔ ∀ v, (p, v) ∉ g := by
  have := hmGet_isSome_iff g p
  constructor
  · intro h v hv
    have : (hmGet g p).isSome = true := (hmGet_isSome_iff g p).mpr ⟨v, hv⟩
    rw [h] at this
    simp at this
  · intro h
    cases hg : hmGet g p with
    | none => rfl
    | some v =>
      have : (hmGet g p).isSome = true := by rw [hg]; rfl
      obtain ⟨w, hw⟩ := (hmGet_isSome_iff g p).mp this
      exact absurd hw (h w)

theorem apply_move_eq_some_iff (st : GameState) (cid : Nat)
    (mv : GridPosition × GridPosition) (st' : GameState) :
    apply_move st cid mv = some st' ↔
      ∃ eid g2, hmGet st.grid_cards mv.1 = some eid ∧
        cascade_grid mv.1 mv.2 (move_ents1 st cid mv.2)
          (hmInsert (hmRemove st.grid_cards mv.1) mv.2 eid) = some g2 ∧
        st' = move_result st cid mv g2 := by
  unfold apply_move
  cases hget : hmGet st.grid_cards mv.1 with
  | none => simp
  | some eid =>
    simp only
    constructor
    · intro h
      rw [Option.map_eq_some'] at h
      obtain ⟨g2, hcg, hst2⟩ := h
      exact ⟨eid, g2, rfl, hcg, hst2.symm⟩
    · rintro ⟨eid2, g2, heid2, hcg, hst2⟩
      injection heid2 with heid2
      subst heid2
      rw [hcg, hst2]
      rfl

theorem handle_grid_input_eq_some_iff (st : GameState)
    (legal : List (GridPosition × GridPosition)) (cid : Nat) (st' : GameState) :
    handle_grid_input st legal cid = some st' ↔
      (clicked_move st legal cid = none ∧ st' = st) ∨
      (∃ mv eid g2, clicked_move st legal cid = some mv ∧
        hmGet st.grid_cards mv.1 = some eid ∧
        cascade_grid mv.1 mv.2 (move_ents1 st cid mv.2)
          (hmInsert (hmRemove st.grid_cards mv.1) mv.2 eid) = some g2 ∧
        st' = move_result st cid mv g2) := by
  unfold handle_grid_input
  cases hcm : clicked_move st legal cid with
  | none => simp [eq_comm]
  | some mv =>
    rw [apply_move_eq_some_iff]
    constructor
    · rintro ⟨eid, g2, hget, hcg, hst2⟩
      exact Or.inr ⟨mv, eid, g2, rfl, hget, hcg, hst2⟩
    · rintro (⟨h1, h2⟩ | ⟨mv2, eid2, g2, hmv2, heid2, hcg, hst2⟩)
      · cases h1
      · injection hmv2 with hmv2
        subst hmv2
        exact ⟨eid2, g2, heid2, hcg, hst2⟩
/-! ## Claim theorems: card model and deck builder -/

/-- C7: `K.previous` is `none`, `A.next` is `none`, and for every rank other
than `A`, `next` then `previous` returns the original rank; symmetrically
`previous` then `next` returns the original rank for every rank other
than `K`. -/
theorem claim_c7_rank_round_trip :
    CardValue.K.previous = none ∧ CardValue.A.next = none ∧
    (∀ r : CardValue, r ≠ CardValue.A → r.next.bind CardValue.previous = some r) ∧
    (∀ r : CardValue, r ≠ CardValue.K → r.previous.bind CardValue.next = some r) := by
  refine ⟨rfl, rfl, ?_, ?_⟩ <;> intro r hr <;> cases r <;>
    first | rfl | exact absurd rfl hr

/-- Witness for C7 at the rank 7. -/
theorem claim_c7_rank_round_trip_witness :
    CardValue.Seven.next.bind CardValue.previous = some CardValue.Seven ∧
    CardValue.Seven.previous.bind CardValue.next = some CardValue.Seven :=
  ⟨claim_c7_rank_round_trip.2.2.1 CardValue.Seven (by decide),
   claim_c7_rank_round_trip.2.2.2 CardValue.Seven (by decide)⟩

/-- C8: the rank-to-number conversion maps `K` to 13 and `A` to 1, is
injective, round-trips with `tryFromNum`, `tryFromNum` succeeds exactly on
1..13, and every out-of-range input yields the error naming the offending
value. -/
theorem claim_c8_rank_number_bijection :
    CardValue.K.toNum = 13 ∧ CardValue.A.toNum = 1 ∧
    (∀ r : CardValue, CardValue.tryFromNum r.toNum = Except.ok r) ∧
    (∀ r1 r2 : CardValue, r1.toNum = r2.toNum → r1 = r2) ∧
    (∀ n : Nat, 1 ≤ n → n ≤ 13 →
      ∃ r : CardValue, r.toNum = n ∧ CardValue.tryFromNum n = Except.ok r) ∧
    (∀ n r, CardValue.tryFromNum n = Except.ok r → r.toNum = n) ∧
    (∀ n : Nat, n = 0 ∨ 14 ≤ n →
      CardValue.tryFromNum n = Except.error ("Unexpected card value: " ++ toString n)) := by
  have herr : ∀ n : Nat, n = 0 ∨ 14 ≤ n →
      CardValue.tryFromNum n = Except.error ("Unexpected card value: " ++ toString n) := by
    intro n hn
    unfold CardValue.tryFromNum
    repeat rw [if_neg (by omega)]
  have hsurj : ∀ n : Nat, 1 ≤ n → n ≤ 13 →
      ∃ r : CardValue, r.toNum = n ∧ CardValue.tryFromNum n = Except.ok r := by
    intro n h1 h13
    interval_cases n
    · exact ⟨CardValue.A, rfl, rfl⟩
    · exact ⟨CardValue.Two, rfl, rfl⟩
    · exact ⟨CardValue.Three, rfl, rfl⟩
    · exact ⟨CardValue.Four, rfl, rfl⟩
    · exact ⟨CardValue.Five, rfl, rfl⟩
    · exact ⟨CardValue.Six, rfl, rfl⟩
    · exact ⟨CardValue.Seven, rfl, rfl⟩
    · exact ⟨CardValue.Eight, rfl, rfl⟩
    · exact ⟨CardValue.Nine, rfl, rfl⟩
    · exact ⟨CardValue.Ten, rfl, rfl⟩
    · exact ⟨CardValue.J, rfl, rfl⟩
    · exact ⟨CardValue.Q, rfl, rfl⟩
    · exact ⟨CardValue.K, rfl, rfl⟩
  refine ⟨rfl, rfl, ?_, ?_, hsurj, ?_, herr⟩
  · intro r; cases r <;> rfl
  · intro r1 r2 h; cases r1 <;> cases r2 <;> first | rfl | exact absurd h (by decide)
  · intro n r hr
    by_cases hn : 1 ≤ n ∧ n ≤ 13
    · obtain ⟨r2, hr2, hok⟩ := hsurj n hn.1 hn.2
      rw [hok] at hr
      cases hr
      exact hr2
    · have := herr n (by omega)
      rw [this] at hr
      cases hr

/-- Witness for C8 at the inputs 0, 100 and 5. -/
theorem claim_c8_rank_number_bijection_witness :
    CardValue.tryFromNum 0 = Except.error ("Unexpected card value: " ++ toString 0) ∧
    CardValue.tryFromNum 100 = Except.error ("Unexpected card value: " ++ toString 100) ∧
    (∃ r : CardValue, r.toNum = 5 ∧ CardValue.tryFromNum 5 = Except.ok r) :=
  ⟨claim_c8_rank_number_bijection.2.2.2.2.2.2 0 (Or.inl rfl),
   claim_c8_rank_number_bijection.2.2.2.2.2.2 100 (Or.inr (by omega)),
   claim_c8_rank_number_bijection.2.2.2.2.1 5 (by omega) (by omega)⟩

/-- C9: for every suit the one-suit constructor yields the 52-card deck made
of 4 repetitions of the 13 descending ranks of that suit, and for every pair
of suits the two-suit constructor yields the 52-card deck made of 2
repetitions of 13 descending ranks of the first suit followed by 13
descending ranks of the second. -/
theorem claim_c9_deck_builders :
    CardValue.all = [CardValue.K, CardValue.Q, CardValue.J, CardValue.Ten,
      CardValue.Nine, CardValue.Eight, CardValue.Seven, CardValue.Six,
      CardValue.Five, CardValue.Four, CardValue.Three, CardValue.Two,
      CardValue.A] ∧
    (∀ s : CardSuit,
      (Deck.from_suit s).cards =
        (List.replicate 4 (CardValue.all.map fun v => { value := v, suit := s : Card })).flatten ∧
      (Deck.from_suit s).cards.length = 52 ∧
      ∀ c ∈ (Deck.from_suit s).cards, c.suit = s) ∧
    (∀ s1 s2 : CardSuit,
      (Deck.from_suits s1 s2).cards =
        (List.replicate 2
          ((CardValue.all.map fun v => { value := v, suit := s1 : Card }) ++
           (CardValue.all.map fun v => { value := v, suit := s2 : Card }))).flatten ∧
      (Deck.from_suits s1 s2).cards.length = 52) := by
  refine ⟨rfl, ?_, ?_⟩
  · intro s
    cases s <;> exact ⟨rfl, rfl, by decide⟩
  · intro s1 s2
    cases s1 <;> cases s2 <;> exact ⟨rfl, rfl⟩

/-- Witness for C9 at the Spades deck and a concrete card of it. -/
theorem claim_c9_deck_builders_witness :
    ({ value := CardValue.K, suit := CardSuit.Spades : Card }).suit = CardSuit.Spades :=
  ((claim_c9_deck_builders.2.1 CardSuit.Spades).2.2)
    { value := CardValue.K, suit := CardSuit.Spades } (by decide)

/-- C1: the computed legal-move list contains the pair `(p, q)` exactly when
there are Shown cards `c` at `p` and `r` with `q` the cell below `r`, the
next value of `r`'s value is `c`'s value, and `q` is unoccupied in the full
occupancy map; no suit condition appears and no other pairs occur. -/
theorem claim_c1_legal_moves (st : GameState) (p q : GridPosition) :
    (p, q) ∈ calculate_legal_moves st ↔
      ∃ c ∈ st.entities, ∃ r ∈ st.entities,
        c.vis = Visibility.Shown ∧ r.vis = Visibility.Shown ∧
        c.pos = p ∧ r.pos.next_row = q ∧
        r.card.value.next = some c.card.value ∧
        hmGet st.grid_cards q = none := by
  unfold calculate_legal_moves
  rw [List.mem_flatMap]
  constructor
  · rintro ⟨c, hc, hmem⟩
    rw [List.mem_filterMap] at hmem
    obtain ⟨r, hr, hfr⟩ := hmem
    have hcs := List.mem_filter.mp hc
    have hrs := List.mem_filter.mp hr
    rw [decide_eq_true_eq] at hcs hrs
    cases hnext : r.card.value.next with
    | none => rw [hnext] at hfr; cases hfr
    | some v =>
      rw [hnext] at hfr
      simp only at hfr
      by_cases hv : v = c.card.value
      · rw [if_pos hv] at hfr
        by_cases hocc : hmGet st.grid_cards r.pos.next_row = none
        · rw [if_pos hocc] at hfr
          injection hfr with hfr
          have hp : c.pos = p := congrArg Prod.fst hfr
          have hq : r.pos.next_row = q := congrArg Prod.snd hfr
          exact ⟨c, hcs.1, r, hrs.1, hcs.2, hrs.2, hp, hq,
            by rw [hnext, hv], by rwa [hq] at hocc⟩
        · rw [if_neg hocc] at hfr; cases hfr
      · rw [if_neg hv] at hfr; cases hfr
  · rintro ⟨c, hc, r, hr, hcs, hrs, hp, hq, hnext, hocc⟩
    refine ⟨c, List.mem_filter.mpr ⟨hc, by simp [hcs]⟩, ?_⟩
    rw [List.mem_filterMap]
    refine ⟨r, List.mem_filter.mpr ⟨hr, by simp [hrs]⟩, ?_⟩
    rw [hnext]
    simp only [if_pos rfl]
    rw [hq, if_pos hocc, hp]
    simp

/-- C10: when the clicked Shown card's position is the source of several
entries of the legal-move list, the executor selects exactly the first such
entry — entries before it with a different source and all entries after it
are ignored, so the destination is determined by the list order alone. -/
theorem claim_c10_first_matching_move (st : GameState) (cid : Nat)
    (ce : PlacedCard) (l1 l2 : List (GridPosition × GridPosition))
    (mv : GridPosition × GridPosition)
    (hce : (st.entities.find? fun e =>
      decide (e.id = cid ∧ e.vis = Visibility.Shown)) = some ce)
    (hl1 : ∀ m ∈ l1, m.1 ≠ ce.pos) (hmv : mv.1 = ce.pos) :
    clicked_move st (l1 ++ mv :: l2) cid = some mv ∧
    handle_grid_input st (l1 ++ mv :: l2) cid = handle_grid_input st [mv] cid := by
  have hfind : ∀ l : List (GridPosition × GridPosition), (∀ m ∈ l, m.1 ≠ ce.pos) →
      ((l ++ mv :: l2).find? fun m => decide (m.1 = ce.pos)) = some mv := by
    intro l hl
    induction l with
    | nil =>
      rw [List.nil_append, List.find?_cons_of_pos _ (by simp [hmv])]
    | cons a l ih =>
      rw [List.cons_append,
        List.find?_cons_of_neg _ (by simp [hl a (List.mem_cons_self a l)])]
      exact ih fun m hm => hl m (List.mem_cons_of_mem a hm)
  have h1 : clicked_move st (l1 ++ mv :: l2) cid = some mv := by
    unfold clicked_move
    rw [hce, Option.some_bind, hfind l1 hl1]
  have h2 : clicked_move st [mv] cid = some mv := by
    unfold clicked_move
    rw [hce, Option.some_bind, List.find?_cons_of_pos _ (by simp [hmv])]
  refine ⟨h1, ?_⟩
  unfold handle_grid_input
  rw [h1, h2]

/-- Witness for C10: the concrete state `exSt1` with the legal-move list
`exMoves1`, whose second and third entries share the clicked source. -/
theorem claim_c10_first_matching_move_witness :
    clicked_move exSt1 exMoves1 0 = some ({ x := 0, y := 0 }, { x := 1, y := 1 }) ∧
    handle_grid_input exSt1 exMoves1 0 =
      handle_grid_input exSt1 [({ x := 0, y := 0 }, { x := 1, y := 1 })] 0 :=
  claim_c10_first_matching_move exSt1 0 exCard8
    [({ x := 5, y := 5 }, { x := 6, y := 6 })]
    [({ x := 0, y := 0 }, { x := 2, y := 2 })]
    ({ x := 0, y := 0 }, { x := 1, y := 1 })
    (by rfl) (by decide) rfl

theorem getElem?_map_vis (l : List PlacedCard) (f : PlacedCard → PlacedCard)
    (i : Nat) (hf : ∀ e, (f e).vis = e.vis) :
    (l.map f)[i]?.map PlacedCard.vis = l[i]?.map PlacedCard.vis := by
  rw [List.getElem?_map, Option.map_map]
  cases l[i]? with
  | none => rfl
  | some e =>
    simp only [Option.map_some', Function.comp]
    rw [hf e]

/-- C5: one evaluation of the reveal step flips to Shown exactly the Hidden
cards whose cell below is unoccupied and changes nothing else; it is
idempotent; and no operation (reveal, move execution, reserve dealing) ever
mutates a visibility flag from Shown back to Hidden. -/
theorem claim_c5_reveal_step (st : GameState) :
    (show_revealed_cards st).grid_cards = st.grid_cards ∧
    (show_revealed_cards st).available_sets = st.available_sets ∧
    (show_revealed_cards st).entities.length = st.entities.length ∧
    (∀ (i : Nat) (e e' : PlacedCard), st.entities[i]? = some e →
      (show_revealed_cards st).entities[i]? = some e' →
      e'.id = e.id ∧ e'.card = e.card ∧ e'.pos = e.pos ∧
      e'.vis = (if e.vis = Visibility.Hidden ∧
                   hmGet st.grid_cards e.pos.next_row = none
                then Visibility.Shown else e.vis)) ∧
    show_revealed_cards (show_revealed_cards st) = show_revealed_cards st ∧
    (∀ (legal : List (GridPosition × GridPosition)) (cid : Nat) (st' : GameState),
      handle_grid_input st legal cid = some st' →
      ∀ i : Nat, st'.entities[i]?.map PlacedCard.vis =
        st.entities[i]?.map PlacedCard.vis) ∧
    (∀ nextId : Nat, ∀ i : Nat, i < st.entities.length →
      (handle_available_input st nextId).entities[i]? = st.entities[i]?) := by
  refine ⟨rfl, rfl, by simp [show_revealed_cards], ?_, ?_, ?_, ?_⟩
  · intro i e e' he he'
    unfold show_revealed_cards at he'
    simp only [List.getElem?_map, he, Option.map_some] at he'
    injection he' with he'
    subst he'
    by_cases hcond : e.vis = Visibility.Hidden ∧
        hmGet st.grid_cards e.pos.next_row = none
    · simp [if_pos hcond]
    · simp [if_neg hcond]
  · obtain ⟨ents, g, av⟩ := st
    unfold show_revealed_cards
    simp only [List.map_map]
    refine congrArg (fun l => GameState.mk l g av) ?_
    apply List.map_congr_left
    intro e _
    by_cases hcond : e.vis = Visibility.Hidden ∧ hmGet g e.pos.next_row = none
    · have h2 : ¬ (Visibility.Shown = Visibility.Hidden ∧
          hmGet g e.pos.next_row = none) := by
        intro hh; exact absurd hh.1 (by decide)
      simp only [Function.comp, if_pos hcond, if_neg h2]
    · simp only [Function.comp, if_neg hcond]
  · intro legal cid st' hst i
    rcases (handle_grid_input_eq_some_iff st legal cid st').mp hst with
      ⟨-, h⟩ | ⟨mv, eid, g2, -, -, -, h⟩
    · rw [h]
    · rw [h]
      simp only [move_result, move_ents2, move_ents1]
      rw [getElem?_map_vis _ _ _ (fun e => by split_ifs <;> rfl),
        getElem?_map_vis _ _ _ (fun e => by split_ifs <;> rfl)]
  · intro nextId i hi
    unfold handle_available_input
    by_cases hav : st.available_sets.isEmpty
    · rw [if_pos hav]
    · rw [if_neg hav]
      simp only
      rw [List.getElem?_append_left hi]

/-- C2: when the executor applies the legal move `(s, t)` selected by the
click, every other Shown card whose column equals the source column and
whose row is strictly greater than the source row is relocated to the
destination column at the same row offset below the target (new row =
`t.y + (old row - s.y)`), with relative row order preserved; ids, cards,
and visibilities never change, no rank or suit continuity is required of
the cascaded cards, and cards in other columns, Hidden cards, and cards at
or above the source row keep their positions. -/
theorem claim_c2_cascade (st : GameState)
    (legal : List (GridPosition × GridPosition)) (cid : Nat)
    (s t : GridPosition) (st' : GameState)
    (hcm : clicked_move st legal cid = some (s, t))
    (h : handle_grid_input st legal cid = some st') :
    st'.entities.length = st.entities.length ∧
    (∀ (i : Nat) (e e' : PlacedCard),
      st.entities[i]? = some e → st'.entities[i]? = some e' →
      e'.id = e.id ∧ e'.card = e.card ∧ e'.vis = e.vis ∧
      (e.id ≠ cid →
        ((e.vis = Visibility.Shown ∧ e.pos.x = s.x ∧ s.y < e.pos.y →
           e'.pos = { x := t.x, y := t.y + (e.pos.y - s.y) }) ∧
         (¬ (e.vis = Visibility.Shown ∧ e.pos.x = s.x ∧ s.y < e.pos.y) →
           e'.pos = e.pos)))) ∧
    (∀ y1 y2 : Nat, s.y < y1 → y1 < y2 →
      (cascade_pos s t { x := s.x, y := y1 }).y <
      (cascade_pos s t { x := s.x, y := y2 }).y) := by
  rcases (handle_grid_input_eq_some_iff st legal cid st').mp h with
    ⟨hnone, -⟩ | ⟨mv, eid, g2, hmv, -, -, hst2⟩
  · rw [hcm] at hnone; cases hnone
  · rw [hcm] at hmv
    injection hmv with hmv
    subst hmv
    subst hst2
    refine ⟨by simp [move_result, move_ents2, move_ents1], ?_, ?_⟩
    · intro i e e' he he'
      simp only [move_result, move_ents2, move_ents1, List.map_map,
        List.getElem?_map, he, Option.map_some'] at he'
      injection he' with he'
      subst he'
      simp only [Function.comp]
      by_cases h1 : e.id = cid ∧ e.vis = Visibility.Shown
      · rw [if_pos h1]
        refine ⟨?_, ?_, ?_, ?_⟩
        · by_cases h2 : cascCond s { e with pos := t } = true
          · rw [if_pos h2]
          · rw [if_neg h2]
        · by_cases h2 : cascCond s { e with pos := t } = true
          · rw [if_pos h2]
          · rw [if_neg h2]
        · by_cases h2 : cascCond s { e with pos := t } = true
          · rw [if_pos h2]
          · rw [if_neg h2]
        · intro hne; exact absurd h1.1 hne
      · rw [if_neg h1]
        by_cases h2 : cascCond s e = true
        · rw [if_pos h2]
          refine ⟨rfl, rfl, rfl, ?_⟩
          intro _
          unfold cascCond at h2
          rw [decide_eq_true_eq] at h2
          exact ⟨fun _ => rfl, fun hcon => absurd h2 hcon⟩
        · rw [if_neg h2]
          refine ⟨rfl, rfl, rfl, ?_⟩
          intro _
          unfold cascCond at h2
          rw [decide_eq_true_eq] at h2
          exact ⟨fun hcon => absurd hcon h2, fun _ => rfl⟩
    · intro y1 y2 h1 h2
      unfold cascade_pos
      simp only
      omega

/-- Witness for C2: moving the card at (0,0) of `exStC2` to (4,5) cascades
the stacked card at (0,1) to (4,6). -/
theorem claim_c2_cascade_witness :
    exStC2Res.entities.length = exStC2.entities.length ∧
    (∀ (i : Nat) (e e' : PlacedCard),
      exStC2.entities[i]? = some e → exStC2Res.entities[i]? = some e' →
      e'.id = e.id ∧ e'.card = e.card ∧ e'.vis = e.vis ∧
      (e.id ≠ 0 →
        ((e.vis = Visibility.Shown ∧ e.pos.x = 0 ∧ 0 < e.pos.y →
           e'.pos = { x := 4, y := 5 + (e.pos.y - 0) }) ∧
         (¬ (e.vis = Visibility.Shown ∧ e.pos.x = 0 ∧ 0 < e.pos.y) →
           e'.pos = e.pos)))) ∧
    (∀ y1 y2 : Nat, 0 < y1 → y1 < y2 →
      (cascade_pos { x := 0, y := 0 } { x := 4, y := 5 } { x := 0, y := y1 }).y <
      (cascade_pos { x := 0, y := 0 } { x := 4, y := 5 } { x := 0, y := y2 }).y) :=
  claim_c2_cascade exStC2 [({ x := 0, y := 0 }, { x := 4, y := 5 })] 0
    { x := 0, y := 0 } { x := 4, y := 5 } exStC2Res (by rfl) (by rfl)

/-- Witness for C5 at the concrete state `exSt1`: the Shown card keeps its
visibility through the reveal step, the move executor run with an empty
legal-move list preserves all visibilities, and dealing preserves the
existing entity at index 0. -/
theorem claim_c5_reveal_step_witness :
    (exCard8.id = exCard8.id ∧ exCard8.card = exCard8.card ∧
      exCard8.pos = exCard8.pos ∧
      exCard8.vis = (if exCard8.vis = Visibility.Hidden ∧
          hmGet exSt1.grid_cards exCard8.pos.next_row = none
        then Visibility.Shown else exCard8.vis)) ∧
    (∀ i : Nat, exSt1.entities[i]?.map PlacedCard.vis =
      exSt1.entities[i]?.map PlacedCard.vis) ∧
    (handle_available_input exSt1 100).entities[0]? = exSt1.entities[0]? :=
  ⟨(claim_c5_reveal_step exSt1).2.2.2.1 0 exCard8 exCard8 rfl rfl,
   (claim_c5_reveal_step exSt1).2.2.2.2.2.1 [] 0 exSt1 rfl,
   (claim_c5_reveal_step exSt1).2.2.2.2.2.2 100 0 (by decide)⟩

theorem getD_set_getD (l : List Nat) (j a i : Nat) :
    (l.set j a).getD i 0 = if j = i ∧ j < l.length then a else l.getD i 0 := by
  rw [List.getD_eq_getElem?_getD, List.getD_eq_getElem?_getD, List.getElem?_set]
  by_cases h1 : j = i
  · subst h1
    by_cases h2 : j < l.length
    · simp [h2]
    · simp [h2, List.getElem?_eq_none (by omega : l.length ≤ j)]
  · simp [h1]

theorem find_max_rows_step_getD (res : List Nat) (p : GridPosition) (i : Nat)
    (hres : res.length = 10) (hp : p.x < 10) :
    (if res.getD p.x 0 ≤ p.y then res.set p.x (p.y + 1) else res).getD i 0 =
      if p.x = i then max (res.getD i 0) (p.y + 1) else res.getD i 0 := by
  by_cases hcond : res.getD p.x 0 ≤ p.y
  · rw [if_pos hcond, getD_set_getD]
    by_cases hpi : p.x = i
    · subst hpi
      rw [if_pos ⟨rfl, by omega⟩, if_pos rfl]
      omega
    · rw [if_neg (fun hh => hpi hh.1), if_neg hpi]
  · rw [if_neg hcond]
    by_cases hpi : p.x = i
    · subst hpi
      rw [if_pos rfl]
      omega
    · rw [if_neg hpi]

theorem foldl_colstep_init (l : List GridPosition) (i : Nat) :
    ∀ a : Nat, l.foldl (fun a p => if p.x = i then max a (p.y + 1) else a) a =
      max a (colLanding l i) := by
  induction l with
  | nil => intro a; simp [colLanding]
  | cons q l ih =>
    intro a
    have hq2 : colLanding (q :: l) i =
        max (if q.x = i then max 0 (q.y + 1) else 0) (colLanding l i) := by
      unfold colLanding
      simp only [List.foldl_cons]
      exact ih _
    simp only [List.foldl_cons]
    rw [ih, hq2]
    by_cases hq : q.x = i
    · rw [if_pos hq, if_pos hq]
      omega
    · rw [if_neg hq, if_neg hq]
      omega

theorem find_max_rows_fold_getD (l : List GridPosition) (i : Nat) (hi : i < 10) :
    ∀ res : List Nat, res.length = 10 → (∀ p ∈ l, p.x < 10) →
      (l.foldl (fun result pos =>
          if result.getD pos.x 0 ≤ pos.y then result.set pos.x (pos.y + 1)
          else result) res).getD i 0 =
        l.foldl (fun a p => if p.x = i then max a (p.y + 1) else a)
          (res.getD i 0) := by
  induction l with
  | nil => intro res _ _; rfl
  | cons q l ih =>
    intro res hres hl
    simp only [List.foldl_cons]
    have hlen : (if res.getD q.x 0 ≤ q.y then res.set q.x (q.y + 1)
        else res).length = 10 := by
      by_cases hc : res.getD q.x 0 ≤ q.y
      · rw [if_pos hc, List.length_set]; exact hres
      · rw [if_neg hc]; exact hres
    rw [ih _ hlen (fun p hp => hl p (List.mem_cons_of_mem q hp))]
    congr 1
    exact find_max_rows_step_getD res q i hres (hl q (List.mem_cons_self q l))

theorem find_max_rows_getD (l : List GridPosition) (i : Nat) (hi : i < 10)
    (hl : ∀ p ∈ l, p.x < 10) :
    (find_max_rows l).getD i 0 = colLanding l i := by
  unfold find_max_rows colLanding
  rw [find_max_rows_fold_getD l i hi (List.replicate 10 0) (by simp) hl]
  congr 1
  rw [List.getD_eq_getElem?_getD, List.getElem?_replicate, if_pos hi]
  rfl

theorem colLanding_lt (l : List GridPosition) (i : Nat) (p : GridPosition)
    (hp : p ∈ l) (hx : p.x = i) : p.y < colLanding l i := by
  induction l with
  | nil => cases hp
  | cons q l ih =>
    have hstep : colLanding (q :: l) i =
        max (if q.x = i then max 0 (q.y + 1) else 0) (colLanding l i) := by
      unfold colLanding
      simp only [List.foldl_cons]
      exact foldl_colstep_init l i _
    rcases List.mem_cons.mp hp with h | h
    · subst h
      rw [hstep, if_pos hx]
      omega
    · have hih := ih h
      by_cases hq : q.x = i
      · rw [hstep, if_pos hq]; omega
      · rw [hstep, if_neg hq]; omega

theorem colLanding_zero_or_succ_mem (l : List GridPosition) (i : Nat) :
    colLanding l i = 0 ∨ ∃ p ∈ l, p.x = i ∧ p.y + 1 = colLanding l i := by
  induction l with
  | nil => exact Or.inl rfl
  | cons q l ih =>
    have hstep : colLanding (q :: l) i =
        max (if q.x = i then max 0 (q.y + 1) else 0) (colLanding l i) := by
      unfold colLanding
      simp only [List.foldl_cons]
      exact foldl_colstep_init l i _
    by_cases hq : q.x = i
    · rw [if_pos hq] at hstep
      rcases ih with h0 | ⟨p, hp, hpx, hpy⟩
      · exact Or.inr ⟨q, List.mem_cons_self q l, hq, by omega⟩
      · by_cases hcmp : colLanding l i ≤ q.y + 1
        · exact Or.inr ⟨q, List.mem_cons_self q l, hq, by omega⟩
        · exact Or.inr ⟨p, List.mem_cons_of_mem q hp, hpx, by omega⟩
    · rw [if_neg hq] at hstep
      rcases ih with h0 | ⟨p, hp, hpx, hpy⟩
      · exact Or.inl (by omega)
      · exact Or.inr ⟨p, List.mem_cons_of_mem q hp, hpx, by omega⟩

/-- C3: dealing with an empty reserve queue is a no-op; with a non-empty
queue the front 10-card set is removed (the queue length decreases by one),
and the `i`-th card of that set is spawned Shown at column `i` at a row
strictly below every occupied cell of column `i`, equal to one more than
the maximum occupied row of that column, or to 0 when the column is
empty. -/
theorem claim_c3_reserve_dealer (st : GameState) (nextId : Nat) :
    (st.available_sets = [] → handle_available_input st nextId = st) ∧
    (∀ front rest, st.available_sets = front :: rest →
      front.length = 10 →
      (∀ p ∈ st.grid_cards.map Prod.fst, p.x < 10) →
      (handle_available_input st nextId).available_sets = rest ∧
      (handle_available_input st nextId).available_sets.length + 1 =
        st.available_sets.length ∧
      (handle_available_input st nextId).entities.length =
        st.entities.length + 10 ∧
      (∀ i : Nat, i < 10 →
        ∃ e : PlacedCard,
          (handle_available_input st nextId).entities[st.entities.length + i]? =
            some e ∧
          front[i]? = some e.card ∧ e.vis = Visibility.Shown ∧ e.pos.x = i ∧
          (∀ p ∈ st.grid_cards.map Prod.fst, p.x = i → p.y < e.pos.y) ∧
          (e.pos.y = 0 ∨
            ∃ p ∈ st.grid_cards.map Prod.fst, p.x = i ∧ p.y + 1 = e.pos.y))) := by
  constructor
  · intro hav
    unfold handle_available_input
    rw [if_pos (by rw [hav]; rfl)]
  · intro front rest hav hlen hx
    unfold handle_available_input
    rw [if_neg (by rw [hav]; simp)]
    simp only [hav, List.headD_cons, List.tail_cons]
    refine ⟨by simp, by simp, by simp [hlen], ?_⟩
    intro i hi
    have hfi : front[i]? = some front[i] :=
      List.getElem?_eq_getElem (by omega)
    refine ⟨{ id := nextId + i, card := front[i], vis := Visibility.Shown, pos := { x := i, y := (find_max_rows (st.grid_cards.map Prod.fst)).getD i 0 } }, ?_, hfi, rfl, rfl, ?_, ?_⟩
    · rw [List.getElem?_append_right (by omega)]
      have : st.entities.length + i - st.entities.length = i := by omega
      rw [this, List.getElem?_map, List.getElem?_enum, hfi]
      rfl
    · intro p hp hpx
      rw [find_max_rows_getD _ i hi hx]
      exact colLanding_lt _ i p hp hpx
    · rw [find_max_rows_getD _ i hi hx]
      rcases colLanding_zero_or_succ_mem (st.grid_cards.map Prod.fst) i with h0 | hm
      · exact Or.inl h0
      · exact Or.inr hm

/-- Witness for C3: dealing on `exStC3` (one card at (0,0), one reserve
set) and the no-op case on `exSt1` (empty reserve queue). -/
theorem claim_c3_reserve_dealer_witness :
    handle_available_input exSt1 7 = exSt1 ∧
    (handle_available_input exStC3 1).available_sets = [] ∧
    (∀ i : Nat, i < 10 →
      ∃ e : PlacedCard,
        (handle_available_input exStC3 1).entities[exStC3.entities.length + i]? =
          some e ∧
        exFront[i]? = some e.card ∧ e.vis = Visibility.Shown ∧ e.pos.x = i ∧
        (∀ p ∈ exStC3.grid_cards.map Prod.fst, p.x = i → p.y < e.pos.y) ∧
        (e.pos.y = 0 ∨
          ∃ p ∈ exStC3.grid_cards.map Prod.fst, p.x = i ∧ p.y + 1 = e.pos.y)) :=
  ⟨(claim_c3_reserve_dealer exSt1 7).1 rfl,
   ((claim_c3_reserve_dealer exStC3 1).2 exFront [] rfl (by decide)
      (by decide)).1,
   ((claim_c3_reserve_dealer exStC3 1).2 exFront [] rfl (by decide)
      (by decide)).2.2.2⟩

theorem chunksExactAux_props (n : Nat) (hn : 0 < n) :
    ∀ (fuel k : Nat) (l : List Card), l.length ≤ fuel → l.length = n * k →
      (chunksExactAux n fuel l).length = k ∧
      (∀ c ∈ chunksExactAux n fuel l, c.length = n) ∧
      (chunksExactAux n fuel l).flatten = l := by
  intro fuel
  induction fuel with
  | zero =>
    intro k l hl hk
    have hnil : l = [] := List.eq_nil_of_length_eq_zero (by omega)
    subst hnil
    have hk0 : k = 0 := by
      rcases Nat.mul_eq_zero.mp hk.symm with h | h
      · omega
      · exact h
    subst hk0
    exact ⟨rfl, fun c hc => absurd hc (List.not_mem_nil c), rfl⟩
  | succ fuel ih =>
    intro k l hl hk
    unfold chunksExactAux
    cases k with
    | zero =>
      have hnil : l = [] := List.eq_nil_of_length_eq_zero (by omega)
      subst hnil
      rw [if_neg (by simp only [List.length_nil]; omega)]
      exact ⟨rfl, fun c hc => absurd hc (List.not_mem_nil c), rfl⟩
    | succ k2 =>
      have hlen2 : l.length = n * k2 + n := by rw [hk, Nat.mul_succ]
      rw [if_pos ⟨by omega, hn⟩]
      have hdrop : (l.drop n).length = n * k2 := by
        rw [List.length_drop]
        omega
      obtain ⟨ih1, ih2, ih3⟩ := ih k2 (l.drop n) (by omega) hdrop
      refine ⟨?_, ?_, ?_⟩
      · rw [List.length_cons, ih1]
      · intro c hc
        rcases List.mem_cons.mp hc with h | h
        · subst h
          rw [List.length_take]
          omega
        · exact ih2 c h
      · rw [List.flatten_cons, ih3, List.take_append_drop]

theorem chunksExact_props (n : Nat) (hn : 0 < n) (k : Nat) (l : List Card)
    (hk : l.length = n * k) :
    (chunksExact n l).length = k ∧ (∀ c ∈ chunksExact n l, c.length = n) ∧
    (chunksExact n l).flatten = l :=
  chunksExactAux_props n hn l.length k l le_rfl hk

/-- C4 counterexample: on the concrete 104-card one-suit shuffled deck
`exDeck104`, the new game places the 51st dealt card (index 50) at row 5,
so the populated cells do not all lie within the first five rows; they
span six rows. -/
theorem claim_c4_counterexample :
    exDeck104.length = 104 ∧
    (new_game exDeck104).entities[50]?.map PlacedCard.pos =
      some { x := 0, y := 5 } ∧
    ¬ (∀ e ∈ (new_game exDeck104).entities, e.pos.y < 5) := by
  refine ⟨by decide, by decide, ?_⟩
  intro h
  have h50 : ({ id := 50, card := { value := CardValue.Two, suit := CardSuit.Spades }, vis := Visibility.Shown, pos := { x := 0, y := 5 } } : PlacedCard) ∈ (new_game exDeck104).entities := by decide
  exact absurd (h _ h50) (by decide)

/-- C4 (amended: the 54 dealt cards span the first six rows, not five):
from any shuffled 104-card deck, the new game deals cards 0..43 Hidden at
(k mod 10, k div 10), cards 44..53 Shown at ((44+k) mod 10, (44+k) div 10),
yielding exactly 44 Hidden and 10 Shown cells, all within columns 0..9 and
rows 0..5, and splits the remaining 50 cards into 5 reserve groups of 10
preserving deck order. -/
theorem claim_c4_new_game (deck : List Card) (hlen : deck.length = 104) :
    (new_game deck).entities.length = 54 ∧
    (∀ k : Nat, k < 44 →
      (new_game deck).entities[k]? =
        deck[k]?.map fun c =>
          { id := k, card := c, vis := Visibility.Hidden,
            pos := { x := k % 10, y := k / 10 } }) ∧
    (∀ k : Nat, k < 10 →
      (new_game deck).entities[44 + k]? =
        deck[44 + k]?.map fun c =>
          { id := 44 + k, card := c, vis := Visibility.Shown,
            pos := { x := (k + 44) % 10, y := (k + 44) / 10 } }) ∧
    ((new_game deck).entities.filter fun e =>
      decide (e.vis = Visibility.Hidden)).length = 44 ∧
    ((new_game deck).entities.filter fun e =>
      decide (e.vis = Visibility.Shown)).length = 10 ∧
    (∀ e ∈ (new_game deck).entities, e.pos.x < 10 ∧ e.pos.y < 6) ∧
    (new_game deck).available_sets.length = 5 ∧
    (∀ s ∈ (new_game deck).available_sets, s.length = 10) ∧
    (new_game deck).available_sets.flatten = deck.drop 54 := by
  have hhidlen : ((deck.take 44).enum.map fun pc =>
      ({ id := pc.1, card := pc.2, vis := Visibility.Hidden,
         pos := { x := pc.1 % 10, y := pc.1 / 10 } } : PlacedCard)).length = 44 := by
    simp [List.enum_length, List.length_take, hlen]
  have hshownlen : (((deck.drop 44).take 10).enum.map fun pc =>
      ({ id := 44 + pc.1, card := pc.2, vis := Visibility.Shown,
         pos := { x := (pc.1 + 44) % 10, y := (pc.1 + 44) / 10 } } : PlacedCard)).length = 10 := by
    simp [List.enum_length, List.length_take, List.length_drop, hlen]
  have hhid : ∀ k : Nat, k < 44 →
      (new_game deck).entities[k]? =
        deck[k]?.map fun c =>
          { id := k, card := c, vis := Visibility.Hidden,
            pos := { x := k % 10, y := k / 10 } } := by
    intro k hk
    unfold new_game
    simp only
    rw [List.getElem?_append_left (by rw [hhidlen]; omega)]
    rw [List.getElem?_map, List.getElem?_enum, List.getElem?_take, if_pos hk]
    cases deck[k]? <;> rfl
  have hshown : ∀ k : Nat, k < 10 →
      (new_game deck).entities[44 + k]? =
        deck[44 + k]?.map fun c =>
          { id := 44 + k, card := c, vis := Visibility.Shown,
            pos := { x := (k + 44) % 10, y := (k + 44) / 10 } } := by
    intro k hk
    unfold new_game
    simp only
    rw [List.getElem?_append_right (by rw [hhidlen]; omega)]
    rw [hhidlen]
    have h44 : 44 + k - 44 = k := by omega
    rw [h44, List.getElem?_map, List.getElem?_enum, List.getElem?_take,
      if_pos hk, List.getElem?_drop]
    cases deck[44 + k]? <;> rfl
  have hlen54 : (new_game deck).entities.length = 54 := by
    unfold new_game
    simp only [List.length_append]
    rw [hhidlen, hshownlen]
  have havail : (new_game deck).available_sets = chunksExact 10 (deck.drop 54) := by
    unfold new_game
    simp only
    rw [List.drop_drop]
  have hchunks := chunksExact_props 10 (by omega) 5 (deck.drop 54)
    (by rw [List.length_drop, hlen])
  refine ⟨hlen54, hhid, hshown, ?_, ?_, ?_, ?_, ?_, ?_⟩
  · unfold new_game
    simp only [List.filter_append]
    rw [List.filter_eq_self.mpr ?_, List.filter_eq_nil_iff.mpr ?_]
    · rw [List.append_nil]
      exact hhidlen
    · intro e he
      obtain ⟨pc, hpc, hpe⟩ := List.mem_map.mp he
      rw [← hpe]
      simp
    · intro e he
      obtain ⟨pc, hpc, hpe⟩ := List.mem_map.mp he
      rw [← hpe]
      simp
  · unfold new_game
    simp only [List.filter_append]
    rw [List.filter_eq_nil_iff.mpr ?_, List.filter_eq_self.mpr ?_]
    · rw [List.nil_append]
      exact hshownlen
    · intro e he
      obtain ⟨pc, hpc, hpe⟩ := List.mem_map.mp he
      rw [← hpe]
      simp
    · intro e he
      obtain ⟨pc, hpc, hpe⟩ := List.mem_map.mp he
      rw [← hpe]
      simp
  · intro e he
    obtain ⟨k, hk⟩ := List.mem_iff_getElem?.mp he
    have hk54 : k < 54 := by
      by_contra hcon
      rw [List.getElem?_eq_none (by omega)] at hk
      cases hk
    by_cases hk44 : k < 44
    · rw [hhid k hk44] at hk
      cases hdk : deck[k]? with
      | none => rw [hdk] at hk; cases hk
      | some c =>
        rw [hdk] at hk
        injection hk with hk
        rw [← hk]
        constructor
        · show k % 10 < 10
          exact Nat.mod_lt k (by omega)
        · show k / 10 < 6
          omega
    · have hk2 : k = 44 + (k - 44) := by omega
      rw [hk2, hshown (k - 44) (by omega)] at hk
      cases hdk : deck[44 + (k - 44)]? with
      | none => rw [hdk] at hk; cases hk
      | some c =>
        rw [hdk] at hk
        injection hk with hk
        rw [← hk]
        constructor
        · show (k - 44 + 44) % 10 < 10
          exact Nat.mod_lt _ (by omega)
        · show (k - 44 + 44) / 10 < 6
          omega
  · rw [havail]
    exact hchunks.1
  · rw [havail]
    exact hchunks.2.1
  · rw [havail]
    exact hchunks.2.2

/-- Witness for C4 at the concrete deck `exDeck104`: length 104, the first
card is dealt Hidden at (0,0) and card 44 Shown at (4,4). -/
theorem claim_c4_new_game_witness :
    (new_game exDeck104).entities.length = 54 ∧
    (new_game exDeck104).entities[0]? =
      exDeck104[0]?.map (fun c =>
        { id := 0, card := c, vis := Visibility.Hidden,
          pos := { x := 0 % 10, y := 0 / 10 } }) ∧
    (new_game exDeck104).entities[44 + 0]? =
      exDeck104[44 + 0]?.map (fun c =>
        { id := 44 + 0, card := c, vis := Visibility.Shown,
          pos := { x := (0 + 44) % 10, y := (0 + 44) / 10 } }) ∧
    (new_game exDeck104).available_sets.length = 5 :=
  ⟨(claim_c4_new_game exDeck104 (by decide)).1,
   (claim_c4_new_game exDeck104 (by decide)).2.1 0 (by omega),
   (claim_c4_new_game exDeck104 (by decide)).2.2.1 0 (by omega),
   (claim_c4_new_game exDeck104 (by decide)).2.2.2.2.2.2.1⟩

theorem filter_pos_length_eq_one_iff (l : List PlacedCard) (p : GridPosition)
    (hnd : (l.map PlacedCard.pos).Nodup) :
    (l.filter fun e => decide (e.pos = p)).length = 1 ↔ ∃ e ∈ l, e.pos = p := by
  induction l with
  | nil => simp
  | cons a l ih =>
    rw [List.map_cons, List.nodup_cons] at hnd
    by_cases hap : a.pos = p
    · have hfn : (l.filter fun e => decide (e.pos = p)) = [] := by
        rw [List.filter_eq_nil_iff]
        intro e he
        simp only [decide_eq_true_eq]
        intro hep
        exact hnd.1 (List.mem_map.mpr ⟨e, he, by rw [hep, hap]⟩)
      rw [List.filter_cons_of_pos (by simp [hap]), hfn]
      simp only [List.length_cons, List.length_nil]
      constructor
      · intro _
        exact ⟨a, List.mem_cons_self a l, hap⟩
      · intro _
        trivial
    · rw [List.filter_cons_of_neg (by simp [hap]), ih hnd.2]
      constructor
      · rintro ⟨e, he, hep⟩
        exact ⟨e, List.mem_cons_of_mem a he, hep⟩
      · rintro ⟨e, he, hep⟩
        rcases List.mem_cons.mp he with h | h
        · exact absurd (h ▸ hep) hap
        · exact ⟨e, h, hep⟩

theorem occInv_iff_mem (st : GameState)
    (hnd : (st.entities.map PlacedCard.pos).Nodup) :
    OccInv st ↔
      ((∀ p, (hmGet st.grid_cards p).isSome = true ↔
        ∃ e ∈ st.entities, e.pos = p) ∧ (st.grid_cards.map Prod.fst).Nodup) := by
  unfold OccInv occupantCount
  constructor
  · rintro ⟨h1, h2⟩
    exact ⟨fun p => (h1 p).trans (filter_pos_length_eq_one_iff _ p hnd), h2⟩
  · rintro ⟨h1, h2⟩
    exact ⟨fun p => (h1 p).trans (filter_pos_length_eq_one_iff _ p hnd).symm, h2⟩

theorem foldl_insert_isSome (ents : List PlacedCard) :
    ∀ (g : GridMap) (p : GridPosition),
      (hmGet (ents.foldl (fun g2 e => hmInsert g2 e.pos e.id) g) p).isSome = true ↔
        (∃ e ∈ ents, e.pos = p) ∨ (hmGet g p).isSome = true := by
  induction ents with
  | nil => intro g p; simp
  | cons a l ih =>
    intro g p
    rw [List.foldl_cons, ih]
    by_cases hp : p = a.pos
    · subst hp
      rw [hmGet_insert, if_pos rfl]
      constructor
      · intro _
        exact Or.inl ⟨a, List.mem_cons_self a l, rfl⟩
      · intro _
        exact Or.inr rfl
    · rw [hmGet_insert, if_neg hp]
      constructor
      · rintro (⟨e, he, hep⟩ | hg)
        · exact Or.inl ⟨e, List.mem_cons_of_mem a he, hep⟩
        · exact Or.inr hg
      · rintro (⟨e, he, hep⟩ | hg)
        · rcases List.mem_cons.mp he with h | h
          · exact absurd (h ▸ hep).symm hp
          · exact Or.inl ⟨e, h, hep⟩
        · exact Or.inr hg

theorem foldl_insert_keys_nodup (ents : List PlacedCard) :
    ∀ g : GridMap, (g.map Prod.fst).Nodup →
      ((ents.foldl (fun g2 e => hmInsert g2 e.pos e.id) g).map Prod.fst).Nodup := by
  induction ents with
  | nil => intro g h; exact h
  | cons a l ih =>
    intro g h
    rw [List.foldl_cons]
    exact ih _ (keys_nodup_insert g a.pos a.id h)

theorem enum_map_fst_comp {α : Type} (l : List Card) (g : Nat → α) :
    l.enum.map (fun pc => g pc.1) = (List.range l.length).map g := by
  rw [← List.enum_map_fst l, List.map_map]
  rfl

theorem new_game_StateOk (deck : List Card) : StateOk (new_game deck) := by
  have hpos : (new_game deck).entities.map PlacedCard.pos =
      ((List.range (deck.take 44).length).map fun k =>
        ({ x := k % 10, y := k / 10 } : GridPosition)) ++
      ((List.range ((deck.drop 44).take 10).length).map fun k =>
        ({ x := (k + 44) % 10, y := (k + 44) / 10 } : GridPosition)) := by
    unfold new_game
    simp only [List.map_append, List.map_map]
    congr 1
    · exact enum_map_fst_comp (deck.take 44)
        (fun k => ({ x := k % 10, y := k / 10 } : GridPosition))
    · exact enum_map_fst_comp ((deck.drop 44).take 10)
        (fun k => ({ x := (k + 44) % 10, y := (k + 44) / 10 } : GridPosition))
  have hids : (new_game deck).entities.map PlacedCard.id =
      ((List.range (deck.take 44).length).map fun k => k) ++
      ((List.range ((deck.drop 44).take 10).length).map fun k => 44 + k) := by
    unfold new_game
    simp only [List.map_append, List.map_map]
    congr 1
    · exact enum_map_fst_comp (deck.take 44) (fun k => k)
    · exact enum_map_fst_comp ((deck.drop 44).take 10) (fun k => 44 + k)
  have hb1 : (deck.take 44).length ≤ 44 := by
    rw [List.length_take]
    omega
  have hb2 : ((deck.drop 44).take 10).length ≤ 10 := by
    rw [List.length_take]
    omega
  have hposnd : ((new_game deck).entities.map PlacedCard.pos).Nodup := by
    rw [hpos]
    refine List.Nodup.append ?_ ?_ ?_
    · refine List.Nodup.map_on ?_ (List.nodup_range _)
      intro x hx y hy hxy
      rw [List.mem_range] at hx hy
      rw [GridPosition.mk.injEq] at hxy
      omega
    · refine List.Nodup.map_on ?_ (List.nodup_range _)
      intro x hx y hy hxy
      rw [List.mem_range] at hx hy
      rw [GridPosition.mk.injEq] at hxy
      omega
    · intro p hp1 hp2
      obtain ⟨k, hk, hkp⟩ := List.mem_map.mp hp1
      obtain ⟨j, hj, hjp⟩ := List.mem_map.mp hp2
      rw [List.mem_range] at hk hj
      rw [← hjp, GridPosition.mk.injEq] at hkp
      omega
  have hidsnd : ((new_game deck).entities.map PlacedCard.id).Nodup := by
    rw [hids]
    refine List.Nodup.append ?_ ?_ ?_
    · refine List.Nodup.map_on ?_ (List.nodup_range _)
      intro x hx y hy hxy
      exact hxy
    · refine List.Nodup.map_on ?_ (List.nodup_range _)
      intro x hx y hy hxy
      omega
    · intro k hk1 hk2
      obtain ⟨x, hx, hxk⟩ := List.mem_map.mp hk1
      obtain ⟨j, hj, hjk⟩ := List.mem_map.mp hk2
      rw [List.mem_range] at hx hj
      omega
  refine ⟨?_, hposnd, hidsnd⟩
  rw [occInv_iff_mem _ hposnd]
  constructor
  · intro p
    show (hmGet ((new_game deck).entities.foldl
      (fun g2 e => hmInsert g2 e.pos e.id) []) p).isSome = true ↔ _
    rw [foldl_insert_isSome]
    simp [hmGet]
  · exact foldl_insert_keys_nodup _ [] (by simp)

theorem occupantCount_map_pos_preserve (ents : List PlacedCard)
    (f : PlacedCard → PlacedCard) (hf : ∀ e, (f e).pos = e.pos)
    (p : GridPosition) :
    ((ents.map f).filter fun e => decide (e.pos = p)).length =
      (ents.filter fun e => decide (e.pos = p)).length := by
  rw [← List.countP_eq_length_filter, ← List.countP_eq_length_filter,
    List.countP_map]
  apply List.countP_congr
  intro e _
  simp [Function.comp, hf e]

theorem show_revealed_StateOk (st : GameState) (h : StateOk st) :
    StateOk (show_revealed_cards st) := by
  obtain ⟨hocc, hpos, hids⟩ := h
  have hfpos : ∀ e : PlacedCard,
      ((if e.vis = Visibility.Hidden ∧ hmGet st.grid_cards e.pos.next_row = none
        then { e with vis := Visibility.Shown } else e) : PlacedCard).pos = e.pos := by
    intro e
    split_ifs <;> rfl
  have hfid : ∀ e : PlacedCard,
      ((if e.vis = Visibility.Hidden ∧ hmGet st.grid_cards e.pos.next_row = none
        then { e with vis := Visibility.Shown } else e) : PlacedCard).id = e.id := by
    intro e
    split_ifs <;> rfl
  have hposmap : (show_revealed_cards st).entities.map PlacedCard.pos =
      st.entities.map PlacedCard.pos := by
    unfold show_revealed_cards
    simp only [List.map_map]
    apply List.map_congr_left
    intro e _
    exact hfpos e
  have hidsmap : (show_revealed_cards st).entities.map PlacedCard.id =
      st.entities.map PlacedCard.id := by
    unfold show_revealed_cards
    simp only [List.map_map]
    apply List.map_congr_left
    intro e _
    exact hfid e
  refine ⟨⟨?_, hocc.2⟩, by rw [hposmap]; exact hpos, by rw [hidsmap]; exact hids⟩
  intro p
  have hcnt : occupantCount (show_revealed_cards st) p = occupantCount st p := by
    unfold occupantCount show_revealed_cards
    exact occupantCount_map_pos_preserve st.entities _ hfpos p
  rw [hcnt]
  exact hocc.1 p

theorem handle_available_StateOk (st : GameState) (nextId : Nat)
    (front : List Card) (rest : List (List Card)) (h : StateOk st)
    (hav : st.available_sets = front :: rest) (hfl : front.length ≤ 10)
    (hx : ∀ p ∈ st.grid_cards.map Prod.fst, p.x < 10)
    (hfresh : ∀ e ∈ st.entities, e.id < nextId) :
    StateOk (handle_available_input st nextId) := by
  obtain ⟨hocc, hpos, hids⟩ := h
  obtain ⟨hmem, hkeys⟩ := (occInv_iff_mem st hpos).mp hocc
  unfold handle_available_input
  rw [if_neg (by rw [hav]; simp)]
  simp only [hav, List.headD_cons, List.tail_cons]
  have hnewpos : (front.enum.map fun pc =>
      ({ id := nextId + pc.1
         card := pc.2
         vis := Visibility.Shown
         pos := { x := pc.1, y := (find_max_rows (st.grid_cards.map Prod.fst)).getD pc.1 0 } } :
        PlacedCard)).map PlacedCard.pos =
      (List.range front.length).map fun k =>
        ({ x := k, y := (find_max_rows (st.grid_cards.map Prod.fst)).getD k 0 } :
          GridPosition) := by
    rw [List.map_map]
    exact enum_map_fst_comp front
      (fun k => ({ x := k, y := (find_max_rows (st.grid_cards.map Prod.fst)).getD k 0 } :
        GridPosition))
  have hnewids : (front.enum.map fun pc =>
      ({ id := nextId + pc.1
         card := pc.2
         vis := Visibility.Shown
         pos := { x := pc.1, y := (find_max_rows (st.grid_cards.map Prod.fst)).getD pc.1 0 } } :
        PlacedCard)).map PlacedCard.id =
      (List.range front.length).map fun k => nextId + k := by
    rw [List.map_map]
    exact enum_map_fst_comp front (fun k => nextId + k)
  have holdkey : ∀ e ∈ st.entities, e.pos ∈ st.grid_cards.map Prod.fst := by
    intro e he
    have : (hmGet st.grid_cards e.pos).isSome = true :=
      (hmem e.pos).mpr ⟨e, he, rfl⟩
    obtain ⟨v, hv⟩ := (hmGet_isSome_iff _ _).mp this
    exact List.mem_map.mpr ⟨(e.pos, v), hv, rfl⟩
  have hdisj : ∀ e ∈ st.entities, ∀ k : Nat, k < front.length →
      e.pos ≠ ({ x := k, y := (find_max_rows (st.grid_cards.map Prod.fst)).getD k 0 } :
        GridPosition) := by
    intro e he k hk hcon
    have hk10 : k < 10 := by omega
    have hlt := colLanding_lt (st.grid_cards.map Prod.fst) k e.pos (holdkey e he)
      (by rw [hcon])
    rw [← find_max_rows_getD _ k hk10 (fun p hp => hx p hp)] at hlt
    have : e.pos.y = (find_max_rows (st.grid_cards.map Prod.fst)).getD k 0 := by
      rw [hcon]
    omega
  have hposnd2 : ((st.entities ++ front.enum.map fun pc =>
      ({ id := nextId + pc.1
         card := pc.2
         vis := Visibility.Shown
         pos := { x := pc.1, y := (find_max_rows (st.grid_cards.map Prod.fst)).getD pc.1 0 } } :
        PlacedCard)).map PlacedCard.pos).Nodup := by
    rw [List.map_append]
    refine List.Nodup.append hpos ?_ ?_
    · rw [hnewpos]
      refine List.Nodup.map_on ?_ (List.nodup_range _)
      intro x hx2 y hy2 hxy
      rw [GridPosition.mk.injEq] at hxy
      exact hxy.1
    · intro p hp1 hp2
      obtain ⟨e, he, hep⟩ := List.mem_map.mp hp1
      rw [hnewpos] at hp2
      obtain ⟨k, hk, hkp⟩ := List.mem_map.mp hp2
      rw [List.mem_range] at hk
      exact hdisj e he k hk (hep.trans hkp.symm)
  refine ⟨?_, hposnd2, ?_⟩
  · rw [occInv_iff_mem _ hposnd2]
    constructor
    · intro p
      rw [foldl_insert_isSome]
      constructor
      · rintro (⟨e, he, hep⟩ | hg)
        · exact ⟨e, List.mem_append.mpr (Or.inr he), hep⟩
        · obtain ⟨e, he, hep⟩ := (hmem p).mp hg
          exact ⟨e, List.mem_append.mpr (Or.inl he), hep⟩
      · rintro ⟨e, he, hep⟩
        rcases List.mem_append.mp he with h1 | h1
        · exact Or.inr ((hmem p).mpr ⟨e, h1, hep⟩)
        · exact Or.inl ⟨e, h1, hep⟩
    · exact foldl_insert_keys_nodup _ _ hkeys
  · rw [List.map_append]
    refine List.Nodup.append hids ?_ ?_
    · rw [hnewids]
      refine List.Nodup.map_on ?_ (List.nodup_range _)
      intro x hx2 y hy2 hxy
      omega
    · intro k hk1 hk2
      obtain ⟨e, he, hek⟩ := List.mem_map.mp hk1
      rw [hnewids] at hk2
      obtain ⟨j, hj, hjk⟩ := List.mem_map.mp hk2
      have := hfresh e he
      omega

theorem cascade_pos_x (s t p : GridPosition) : (cascade_pos s t p).x = t.x := rfl

theorem cascade_pos_inj (s t p1 p2 : GridPosition) (h1x : p1.x = s.x)
    (h2x : p2.x = s.x) (h1y : s.y < p1.y) (h2y : s.y < p2.y)
    (h : cascade_pos s t p1 = cascade_pos s t p2) : p1 = p2 := by
  unfold cascade_pos at h
  rw [GridPosition.mk.injEq] at h
  have : p1.y = p2.y := by omega
  cases p1
  cases p2
  simp only at h1x h2x this
  rw [GridPosition.mk.injEq]
  exact ⟨h1x.trans h2x.symm, this⟩

theorem cascCond_spec (s : GridPosition) (e : PlacedCard)
    (h : cascCond s e = true) :
    e.vis = Visibility.Shown ∧ e.pos.x = s.x ∧ s.y < e.pos.y := by
  unfold cascCond at h
  rwa [decide_eq_true_eq] at h

theorem cascade_grid_spec (s t : GridPosition) (hxt : s.x ≠ t.x) :
    ∀ (ents : List PlacedCard) (g : GridMap),
      (∀ e ∈ ents, cascCond s e = true → (hmGet g e.pos).isSome = true) →
      (∀ e ∈ ents, cascCond s e = true →
        hmGet g (cascade_pos s t e.pos) = none) →
      ((ents.filter (cascCond s)).map PlacedCard.pos).Nodup →
      ∃ g2, cascade_grid s t ents g = some g2 ∧
        (∀ p : GridPosition, (hmGet g2 p).isSome = true ↔
          ((∃ e ∈ ents, cascCond s e = true ∧ cascade_pos s t e.pos = p) ∨
           ((hmGet g p).isSome = true ∧
            ¬ ∃ e ∈ ents, cascCond s e = true ∧ e.pos = p))) ∧
        ((g.map Prod.fst).Nodup → (g2.map Prod.fst).Nodup) := by
  intro ents
  induction ents with
  | nil =>
    intro g _ _ _
    refine ⟨g, rfl, fun p => ?_, fun h => h⟩
    simp
  | cons a l ih =>
    intro g hsrc hdst hnd
    by_cases hca : cascCond s a = true
    · have hga := hsrc a (List.mem_cons_self a l) hca
      obtain ⟨eid, heid⟩ : ∃ v, hmGet g a.pos = some v := by
        cases hg : hmGet g a.pos with
        | none => rw [hg] at hga; simp at hga
        | some v => exact ⟨v, rfl⟩
      have hax := cascCond_spec s a hca
      have hget' : ∀ q, hmGet (hmInsert (hmRemove g a.pos)
          (cascade_pos s t a.pos) eid) q =
          if q = cascade_pos s t a.pos then some eid
          else if q = a.pos then none else hmGet g q := by
        intro q
        rw [hmGet_insert]
        by_cases h1 : q = cascade_pos s t a.pos
        · rw [if_pos h1, if_pos h1]
        · rw [if_neg h1, if_neg h1, hmGet_remove]
      have hndc : ((l.filter (cascCond s)).map PlacedCard.pos).Nodup ∧
          a.pos ∉ (l.filter (cascCond s)).map PlacedCard.pos := by
        rw [List.filter_cons_of_pos hca, List.map_cons, List.nodup_cons] at hnd
        exact ⟨hnd.2, hnd.1⟩
      have hsrc' : ∀ e ∈ l, cascCond s e = true →
          (hmGet (hmInsert (hmRemove g a.pos) (cascade_pos s t a.pos) eid)
            e.pos).isSome = true := by
        intro e he hce
        have hex := cascCond_spec s e hce
        rw [hget']
        rw [if_neg (by
            intro hcon
            have hxx : e.pos.x = t.x := by rw [hcon]; rfl
            exact hxt (hex.2.1.symm.trans hxx)),
          if_neg (by
            intro hcon
            exact hndc.2 (List.mem_map.mpr
              ⟨e, List.mem_filter.mpr ⟨he, hce⟩, hcon⟩))]
        exact hsrc e (List.mem_cons_of_mem a he) hce
      have hdst' : ∀ e ∈ l, cascCond s e = true →
          hmGet (hmInsert (hmRemove g a.pos) (cascade_pos s t a.pos) eid)
            (cascade_pos s t e.pos) = none := by
        intro e he hce
        have hex := cascCond_spec s e hce
        rw [hget']
        rw [if_neg (by
            intro hcon
            have := cascade_pos_inj s t e.pos a.pos hex.2.1 hax.2.1 hex.2.2
              hax.2.2 hcon
            exact hndc.2 (List.mem_map.mpr
              ⟨e, List.mem_filter.mpr ⟨he, hce⟩, this⟩)),
          if_neg (by
            intro hcon
            have hxx : t.x = a.pos.x := by rw [← hcon]; rfl
            exact hxt (hax.2.1.symm.trans hxx.symm))]
        exact hdst e (List.mem_cons_of_mem a he) hce
      obtain ⟨g2, hg2, hchar, hknd⟩ := ih _ hsrc' hdst' hndc.1
      refine ⟨g2, ?_, ?_, ?_⟩
      · show (a :: l).foldl _ (some g) = some g2
        rw [List.foldl_cons]
        show l.foldl _ (Option.bind (some g) _) = some g2
        rw [Option.some_bind]
        simp only [if_pos hca, heid]
        exact hg2
      · intro p
        rw [hchar p, hget' p]
        by_cases hp1 : p = cascade_pos s t a.pos
        · subst hp1
          rw [if_pos rfl]
          constructor
          · intro _
            exact Or.inl ⟨a, List.mem_cons_self a l, hca, rfl⟩
          · intro _
            by_cases h2 : ∃ e ∈ l, cascCond s e = true ∧
                cascade_pos s t e.pos = cascade_pos s t a.pos
            · exact Or.inl h2
            · refine Or.inr ⟨by simp, ?_⟩
              rintro ⟨e, he, hce, hep⟩
              have hex := cascCond_spec s e hce
              have hxx : e.pos.x = t.x := by rw [hep]; rfl
              exact hxt (hex.2.1.symm.trans hxx)
        · rw [if_neg hp1]
          by_cases hp2 : p = a.pos
          · subst hp2
            rw [if_pos rfl]
            constructor
            · rintro (⟨e, he, hce, hep⟩ | ⟨hfalse, -⟩)
              · have hex := cascCond_spec s e hce
                have hxx : t.x = a.pos.x := by rw [← hep]; rfl
                exact absurd (hax.2.1.symm.trans hxx.symm) hxt
              · simp at hfalse
            · rintro (⟨e, he, hce, hep⟩ | ⟨hg, hne⟩)
              · have hex := cascCond_spec s e hce
                have hxx : t.x = a.pos.x := by rw [← hep]; rfl
                exact absurd (hax.2.1.symm.trans hxx.symm) hxt
              · exact absurd ⟨a, List.mem_cons_self a l, hca, rfl⟩ hne
          · rw [if_neg hp2]
            constructor
            · rintro (⟨e, he, hce, hep⟩ | ⟨hg, hne⟩)
              · exact Or.inl ⟨e, List.mem_cons_of_mem a he, hce, hep⟩
              · refine Or.inr ⟨hg, ?_⟩
                rintro ⟨e, he, hce, hep⟩
                rcases List.mem_cons.mp he with h | h
                · exact hp2 (by rw [← hep, h])
                · exact hne ⟨e, h, hce, hep⟩
            · rintro (⟨e, he, hce, hep⟩ | ⟨hg, hne⟩)
              · rcases List.mem_cons.mp he with h | h
                · exact absurd (by rw [← hep, h] : p = cascade_pos s t a.pos) hp1
                · exact Or.inl ⟨e, h, hce, hep⟩
              · refine Or.inr ⟨hg, ?_⟩
                rintro ⟨e, he, hce, hep⟩
                exact hne ⟨e, List.mem_cons_of_mem a he, hce, hep⟩
      · intro hknodup
        exact hknd (keys_nodup_insert _ _ _ (keys_nodup_remove _ _ hknodup))
    · have hndc : ((l.filter (cascCond s)).map PlacedCard.pos).Nodup := by
        rwa [List.filter_cons_of_neg (by simp [hca])] at hnd
      obtain ⟨g2, hg2, hchar, hknd⟩ := ih g
        (fun e he hce => hsrc e (List.mem_cons_of_mem a he) hce)
        (fun e he hce => hdst e (List.mem_cons_of_mem a he) hce) hndc
      refine ⟨g2, ?_, ?_, hknd⟩
      · show (a :: l).foldl _ (some g) = some g2
        rw [List.foldl_cons]
        show l.foldl _ (Option.bind (some g) _) = some g2
        rw [Option.some_bind]
        simp only [if_neg hca]
        exact hg2
      · intro p
        rw [hchar p]
        constructor
        · rintro (⟨e, he, hce, hep⟩ | ⟨hg, hne⟩)
          · exact Or.inl ⟨e, List.mem_cons_of_mem a he, hce, hep⟩
          · refine Or.inr ⟨hg, ?_⟩
            rintro ⟨e, he, hce, hep⟩
            rcases List.mem_cons.mp he with h | h
            · exact hca (h ▸ hce)
            · exact hne ⟨e, h, hce, hep⟩
        · rintro (⟨e, he, hce, hep⟩ | ⟨hg, hne⟩)
          · rcases List.mem_cons.mp he with h | h
            · exact absurd (h ▸ hce) hca
            · exact Or.inl ⟨e, h, hce, hep⟩
          · refine Or.inr ⟨hg, ?_⟩
            rintro ⟨e, he, hce, hep⟩
            exact hne ⟨e, List.mem_cons_of_mem a he, hce, hep⟩

theorem handle_grid_input_StateOk (st : GameState)
    (legal : List (GridPosition × GridPosition)) (cid : Nat)
    (s t : GridPosition) (st' : GameState) (h : StateOk st)
    (hcm : clicked_move st legal cid = some (s, t))
    (ht : hmGet st.grid_cards t = none)
    (hxt : s.x ≠ t.x)
    (hcd : ∀ e ∈ st.entities, cascCond s e = true →
      hmGet st.grid_cards (cascade_pos s t e.pos) = none)
    (hres : handle_grid_input st legal cid = some st') :
    StateOk st' := by
  obtain ⟨hocc, hpos, hids⟩ := h
  obtain ⟨hmem, hkeys⟩ := (occInv_iff_mem st hpos).mp hocc
  have hentnd : st.entities.Nodup := List.Nodup.of_map PlacedCard.pos hpos
  have posInj := List.inj_on_of_nodup_map hpos
  have idInj := List.inj_on_of_nodup_map hids
  -- the clicked entity
  have hcm2 := hcm
  unfold clicked_move at hcm2
  cases hce : st.entities.find? fun e =>
      decide (e.id = cid ∧ e.vis = Visibility.Shown) with
  | none => rw [hce] at hcm2; cases hcm2
  | some ce =>
  rw [hce, Option.some_bind] at hcm2
  have hcemem := List.mem_of_find?_eq_some hce
  have hcepred : ce.id = cid ∧ ce.vis = Visibility.Shown := by
    have := List.find?_some hce
    rwa [decide_eq_true_eq] at this
  have hspos : s = ce.pos := by
    have := List.find?_some hcm2
    rwa [decide_eq_true_eq] at this
  -- no entity occupies the target cell
  have hnot : ∀ e ∈ st.entities, e.pos ≠ t := by
    intro e he het
    have h1 := (hmem t).mpr ⟨e, he, het⟩
    rw [ht] at h1
    simp at h1
  -- the first phase updates exactly the clicked entity
  have hfid : ∀ e ∈ st.entities,
      ((if e.id = cid ∧ e.vis = Visibility.Shown
        then { e with pos := t } else e) : PlacedCard) =
      if e = ce then { ce with pos := t } else e := by
    intro e he
    by_cases hpred : e.id = cid ∧ e.vis = Visibility.Shown
    · have hecc : e = ce := idInj he hcemem (hpred.1.trans hcepred.1.symm)
      subst hecc
      rw [if_pos hpred, if_pos rfl]
    · rw [if_neg hpred, if_neg (by
        intro hcon
        subst hcon
        exact hpred hcepred)]
  have hents1 : move_ents1 st cid t =
      st.entities.map fun e => if e = ce then { ce with pos := t } else e := by
    unfold move_ents1
    exact List.map_congr_left hfid
  -- uniqueness of positions after the first phase
  have hpos1 : ((move_ents1 st cid t).map PlacedCard.pos).Nodup := by
    rw [hents1, List.map_map]
    refine List.Nodup.map_on ?_ hentnd
    intro e1 he1 e2 he2 h12
    simp only [Function.comp] at h12
    by_cases hc1 : e1 = ce <;> by_cases hc2 : e2 = ce
    · rw [hc1, hc2]
    · rw [if_pos hc1, if_neg hc2] at h12
      exact absurd h12.symm (hnot e2 he2)
    · rw [if_neg hc1, if_pos hc2] at h12
      exact absurd h12 (hnot e1 he1)
    · rw [if_neg hc1, if_neg hc2] at h12
      exact posInj he1 he2 h12
  have posInj1 := List.inj_on_of_nodup_map hpos1
  have hents1nd : (move_ents1 st cid t).Nodup :=
    List.Nodup.of_map PlacedCard.pos hpos1
  -- membership in the phase-1 entity list
  have hmem1 : ∀ e1 ∈ move_ents1 st cid t,
      (e1 = { ce with pos := t }) ∨
      (e1 ∈ st.entities ∧ e1 ≠ ce ∧ e1.pos ≠ t) := by
    intro e1 he1
    rw [hents1] at he1
    obtain ⟨e0, he0, hfe0⟩ := List.mem_map.mp he1
    by_cases hc0 : e0 = ce
    · rw [if_pos hc0] at hfe0
      exact Or.inl hfe0.symm
    · rw [if_neg hc0] at hfe0
      subst hfe0
      exact Or.inr ⟨he0, hc0, hnot e0 he0⟩
  have hmem1r : ∀ e0 ∈ st.entities, e0 ≠ ce → e0 ∈ move_ents1 st cid t := by
    intro e0 he0 hne
    rw [hents1]
    exact List.mem_map.mpr ⟨e0, he0, by rw [if_neg hne]⟩
  have hcemem1 : ({ ce with pos := t } : PlacedCard) ∈ move_ents1 st cid t := by
    rw [hents1]
    exact List.mem_map.mpr ⟨ce, hcemem, by rw [if_pos rfl]⟩
  -- a card sitting in the destination column is not cascade-eligible
  have hcasct : ∀ e1 : PlacedCard, e1.pos.x = t.x → ¬ cascCond s e1 = true := by
    intro e1 hx1 hcon
    have hc := cascCond_spec s e1 hcon
    exact hxt (hc.2.1.symm.trans hx1)
  -- inversion of the executed move
  rcases (handle_grid_input_eq_some_iff st legal cid st').mp hres with
    ⟨hnone, -⟩ | ⟨mv, eid, g2, hmv, hget, hcg, hst2⟩
  · rw [hcm] at hnone; cases hnone
  rw [hcm] at hmv
  injection hmv with hmv
  subst hmv
  subst hst2
  have hget2 : hmGet st.grid_cards s = some eid := hget
  have hcg2 : cascade_grid s t (move_ents1 st cid t)
      (hmInsert (hmRemove st.grid_cards s) t eid) = some g2 := hcg
  have hg1get : ∀ q, hmGet (hmInsert (hmRemove st.grid_cards s) t eid) q =
      if q = t then some eid else if q = s then none else hmGet st.grid_cards q := by
    intro q
    rw [hmGet_insert]
    by_cases h1 : q = t
    · rw [if_pos h1, if_pos h1]
    · rw [if_neg h1, if_neg h1, hmGet_remove]
  have hsrc1 : ∀ e ∈ move_ents1 st cid t, cascCond s e = true →
      (hmGet (hmInsert (hmRemove st.grid_cards s) t eid) e.pos).isSome = true := by
    intro e he hcasc
    rcases hmem1 e he with hE | ⟨hmem0, hne, hnet⟩
    · exact absurd hcasc (hcasct _ (by rw [hE]))
    · rw [hg1get]
      rw [if_neg hnet, if_neg (by
          intro hcon
          exact hne (posInj hmem0 hcemem (by rw [hcon, hspos])))]
      exact (hmem e.pos).mpr ⟨e, hmem0, rfl⟩
  have hdst1 : ∀ e ∈ move_ents1 st cid t, cascCond s e = true →
      hmGet (hmInsert (hmRemove st.grid_cards s) t eid)
        (cascade_pos s t e.pos) = none := by
    intro e he hcasc
    rcases hmem1 e he with hE | ⟨hmem0, hne, hnet⟩
    · exact absurd hcasc (hcasct _ (by rw [hE]))
    · have hcspec := cascCond_spec s e hcasc
      rw [hg1get]
      rw [if_neg (by
          intro hcon
          have hyy : t.y + (e.pos.y - s.y) = t.y := congrArg GridPosition.y hcon
          have := hcspec.2.2
          omega),
        if_neg (by
          intro hcon
          have hxx := congrArg GridPosition.x hcon
          exact hxt ((show t.x = s.x from hxx).symm))]
      exact hcd e hmem0 hcasc
  have hnd1 : (((move_ents1 st cid t).filter (cascCond s)).map PlacedCard.pos).Nodup :=
    hpos1.sublist (List.Sublist.map _ (List.filter_sublist _))
  obtain ⟨g2x, hg2x, hchar, hknd⟩ := cascade_grid_spec s t hxt
    (move_ents1 st cid t) (hmInsert (hmRemove st.grid_cards s) t eid)
    hsrc1 hdst1 hnd1
  have hg2eq : g2 = g2x := Option.some.inj (hcg2.symm.trans hg2x)
  subst hg2eq
  have hdestfree : ∀ e1 ∈ move_ents1 st cid t, cascCond s e1 = true →
      ∀ e2 ∈ move_ents1 st cid t, ¬ cascCond s e2 = true →
      cascade_pos s t e1.pos ≠ e2.pos := by
    intro e1 he1 hc1 e2 he2 hc2 hcon
    rcases hmem1 e1 he1 with hE | ⟨h1mem, h1ne, h1net⟩
    · exact absurd hc1 (hcasct _ (by rw [hE]))
    rcases hmem1 e2 he2 with hE2 | ⟨h2mem, h2ne, h2net⟩
    · have s1 := cascCond_spec s e1 hc1
      have hyy : t.y + (e1.pos.y - s.y) = t.y := by
        have h0 := congrArg GridPosition.y hcon
        rw [hE2] at h0
        exact h0
      have := s1.2.2
      omega
    · have hnone := hcd e1 h1mem hc1
      have h1 := (hmem (cascade_pos s t e1.pos)).mpr ⟨e2, h2mem, hcon.symm⟩
      rw [hnone] at h1
      simp at h1
  have hpos2 : ((move_ents2 s t (move_ents1 st cid t)).map PlacedCard.pos).Nodup := by
    unfold move_ents2
    rw [List.map_map]
    refine List.Nodup.map_on ?_ hents1nd
    intro e1 he1 e2 he2 h12
    simp only [Function.comp] at h12
    by_cases hc1 : cascCond s e1 = true <;> by_cases hc2 : cascCond s e2 = true
    · rw [if_pos hc1, if_pos hc2] at h12
      have s1 := cascCond_spec s e1 hc1
      have s2 := cascCond_spec s e2 hc2
      exact posInj1 he1 he2
        (cascade_pos_inj s t e1.pos e2.pos s1.2.1 s2.2.1 s1.2.2 s2.2.2 h12)
    · rw [if_pos hc1, if_neg hc2] at h12
      exact absurd h12 (hdestfree e1 he1 hc1 e2 he2 hc2)
    · rw [if_neg hc1, if_pos hc2] at h12
      exact absurd h12.symm (hdestfree e2 he2 hc2 e1 he1 hc1)
    · rw [if_neg hc1, if_neg hc2] at h12
      exact posInj1 he1 he2 h12
  have hids2 : ((move_ents2 s t (move_ents1 st cid t)).map PlacedCard.id).Nodup := by
    have h2 : (move_ents2 s t (move_ents1 st cid t)).map PlacedCard.id =
        (move_ents1 st cid t).map PlacedCard.id := by
      unfold move_ents2
      rw [List.map_map]
      apply List.map_congr_left
      intro e _
      simp only [Function.comp]
      split_ifs <;> rfl
    have h1 : (move_ents1 st cid t).map PlacedCard.id =
        st.entities.map PlacedCard.id := by
      unfold move_ents1
      rw [List.map_map]
      apply List.map_congr_left
      intro e _
      simp only [Function.comp]
      split_ifs <;> rfl
    rw [h2, h1]
    exact hids
  have hmemiff : ∀ p, (hmGet g2 p).isSome = true ↔
      ∃ e ∈ move_ents2 s t (move_ents1 st cid t), e.pos = p := by
    intro p
    rw [hchar p]
    constructor
    · rintro (⟨e, he, hce2, hep⟩ | ⟨hg1, hne⟩)
      · refine ⟨{ e with pos := cascade_pos s t e.pos }, ?_, hep⟩
        unfold move_ents2
        exact List.mem_map.mpr ⟨e, he, by rw [if_pos hce2]⟩
      · rw [hg1get] at hg1
        by_cases hp1 : p = t
        · refine ⟨{ ce with pos := t }, ?_, hp1.symm⟩
          unfold move_ents2
          refine List.mem_map.mpr ⟨{ ce with pos := t }, hcemem1, ?_⟩
          rw [if_neg (hcasct _ rfl)]
        · rw [if_neg hp1] at hg1
          by_cases hp2 : p = s
          · rw [if_pos hp2] at hg1
            simp at hg1
          · rw [if_neg hp2] at hg1
            obtain ⟨e0, he0, hep0⟩ := (hmem p).mp hg1
            have hne0 : e0 ≠ ce := by
              intro hcon
              exact hp2 (by rw [← hep0, hcon, ← hspos])
            have he01 : e0 ∈ move_ents1 st cid t := hmem1r e0 he0 hne0
            have hnc : ¬ cascCond s e0 = true := by
              intro hcon
              exact hne ⟨e0, he01, hcon, hep0⟩
            refine ⟨e0, ?_, hep0⟩
            unfold move_ents2
            exact List.mem_map.mpr ⟨e0, he01, by rw [if_neg hnc]⟩
    · rintro ⟨e2, he2, hep2⟩
      unfold move_ents2 at he2
      obtain ⟨e1, he1, hfe1⟩ := List.mem_map.mp he2
      by_cases hc1 : cascCond s e1 = true
      · rw [if_pos hc1] at hfe1
        refine Or.inl ⟨e1, he1, hc1, ?_⟩
        rw [← hep2, ← hfe1]
      · rw [if_neg hc1] at hfe1
        subst hfe1
        rcases hmem1 e1 he1 with hE | ⟨h1mem, h1ne, h1net⟩
        · have hpt : p = t := by rw [← hep2, hE]
          refine Or.inr ⟨?_, ?_⟩
          · rw [hg1get, if_pos hpt]
            rfl
          · rintro ⟨e', he', hc', hep'⟩
            have s' := cascCond_spec s e' hc'
            exact hxt (s'.2.1.symm.trans (by rw [hep', hpt]))
        · refine Or.inr ⟨?_, ?_⟩
          · rw [hg1get]
            rw [if_neg (by rw [← hep2]; exact h1net), if_neg (by
                intro hcon
                exact h1ne (posInj h1mem hcemem (by rw [hep2, hcon, hspos])))]
            exact (hmem p).mpr ⟨e1, h1mem, hep2⟩
          · rintro ⟨e', he', hc', hep'⟩
            rcases hmem1 e' he' with hE' | ⟨h'mem, h'ne, h'net⟩
            · exact absurd hc' (hcasct _ (by rw [hE']))
            · have heq : e' = e1 := posInj h'mem h1mem (by rw [hep', hep2])
              exact hc1 (heq ▸ hc')
  have hkeys2 : (g2.map Prod.fst).Nodup :=
    hknd (keys_nodup_insert _ _ _ (keys_nodup_remove _ _ hkeys))
  have main : StateOk { entities := move_ents2 s t (move_ents1 st cid t)
                        grid_cards := g2
                        available_sets := st.available_sets } := by
    refine ⟨?_, hpos2, hids2⟩
    rw [occInv_iff_mem _ hpos2]
    exact ⟨hmemiff, hkeys2⟩
  exact main

/-- C6 counterexample: the state `exStC6` satisfies the occupancy-map
invariant (with unique positions and ids), its computed legal-move set is
exactly ((0,2) → (4,5)), yet executing that move breaks the invariant:
the cascaded card overwrites the map key (4,6) while two card entities end
up at (4,6). -/
theorem claim_c6_counterexample :
    StateOk exStC6 ∧
    calculate_legal_moves exStC6 =
      [({ x := 0, y := 2 }, { x := 4, y := 5 })] ∧
    handle_grid_input exStC6 (calculate_legal_moves exStC6) 0 =
      some exStC6Res ∧
    ¬ OccInv exStC6Res := by
  have hOcc : OccInv exStC6 := by
    rw [occInv_iff_mem _ (by decide)]
    refine ⟨?_, by decide⟩
    intro p
    constructor
    · intro hg
      obtain ⟨v, hv⟩ := (hmGet_isSome_iff _ _).mp hg
      simp only [exStC6, List.mem_cons, List.not_mem_nil, or_false] at hv
      rcases hv with h | h | h | h
      all_goals
        rw [Prod.mk.injEq] at h
        rw [h.1]
        decide
    · rintro ⟨e, he, hep⟩
      simp only [exStC6, List.mem_cons, List.not_mem_nil, or_false] at he
      rcases he with h | h | h | h
      all_goals
        subst h
        rw [← hep]
        decide
  refine ⟨⟨hOcc, by decide, by decide⟩, by decide, by decide, ?_⟩
  intro hocc
  exact absurd ((hocc.1 { x := 4, y := 6 }).mp (by decide)) (by decide)

/-- C6 (amended: move execution preserves the invariant only under the
additional conditions that the destination column differs from the source
column and that every cascade destination cell is unoccupied; without
them the counterexample above violates it): the occupancy-map invariant,
strengthened with uniqueness of entity positions and entity ids, holds
after new-game setup, is preserved by the reveal step, by reserve dealing
(fresh ids, a ≤10-card front set, in-range columns), and by move execution
under the stated conditions. -/
theorem claim_c6_occupancy_invariant :
    (∀ deck : List Card, StateOk (new_game deck)) ∧
    (∀ st : GameState, StateOk st → StateOk (show_revealed_cards st)) ∧
    (∀ (st : GameState) (nextId : Nat) (front : List Card)
      (rest : List (List Card)), StateOk st →
      st.available_sets = front :: rest → front.length ≤ 10 →
      (∀ p ∈ st.grid_cards.map Prod.fst, p.x < 10) →
      (∀ e ∈ st.entities, e.id < nextId) →
      StateOk (handle_available_input st nextId)) ∧
    (∀ (st : GameState) (legal : List (GridPosition × GridPosition))
      (cid : Nat) (s t : GridPosition) (st' : GameState), StateOk st →
      clicked_move st legal cid = some (s, t) →
      hmGet st.grid_cards t = none → s.x ≠ t.x →
      (∀ e ∈ st.entities, cascCond s e = true →
        hmGet st.grid_cards (cascade_pos s t e.pos) = none) →
      handle_grid_input st legal cid = some st' → StateOk st') ∧
    (∀ st : GameState, StateOk st → OccInv st) :=
  ⟨new_game_StateOk, show_revealed_StateOk,
   fun st n front rest h h1 h2 h3 h4 =>
     handle_available_StateOk st n front rest h h1 h2 h3 h4,
   fun st legal cid s t st' h h1 h2 h3 h4 h5 =>
     handle_grid_input_StateOk st legal cid s t st' h h1 h2 h3 h4 h5,
   fun _ h => h.1⟩

/-- Witness for C6: the invariant after dealing on a fresh 104-card game,
after the reveal step, and after executing the single legal move of a
46-card game. -/
theorem claim_c6_occupancy_invariant_witness :
    StateOk (show_revealed_cards (new_game exDeck104)) ∧
    StateOk (handle_available_input (new_game exDeck104) 54) ∧
    StateOk exStC6WRes ∧
    OccInv (new_game exDeck104) :=
  ⟨claim_c6_occupancy_invariant.2.1 (new_game exDeck104)
     (claim_c6_occupancy_invariant.1 exDeck104),
   claim_c6_occupancy_invariant.2.2.1 (new_game exDeck104) 54
     ((exDeck104.drop 54).take 10)
     (chunksExact 10 ((exDeck104.drop 54).drop 10))
     (claim_c6_occupancy_invariant.1 exDeck104)
     (by decide) (by decide) (by decide) (by decide),
   claim_c6_occupancy_invariant.2.2.2.1 (new_game exDeck46)
     [({ x := 5, y := 4 }, { x := 4, y := 5 })] 45
     { x := 5, y := 4 } { x := 4, y := 5 } exStC6WRes
     (claim_c6_occupancy_invariant.1 exDeck46)
     (by decide) (by decide) (by decide) (by decide) (by decide),
   claim_c6_occupancy_invariant.2.2.2.2 (new_game exDeck104)
     (claim_c6_occupancy_invariant.1 exDeck104)⟩
